import Mathlib

/-!
Verification of the Fingrid Open Data fetch pipeline.

Shallow embedding of the core of the repository:
  * `config.py`            — constants and `get_api_key`
  * `api_client.py`        — `_build_url` and the paginated `fetch_timeseries` loop
  * `services/data_service.py` — the record-to-row normalization section of
    `fetch_and_process` (record loop + `rows.sort`)

Python values decoded from JSON are modelled by the inductive `PyVal`
(`None`, bool, int, float, str, list, dict).  Python floats are modelled as
exact rationals plus infinities and NaN; no claim below depends on IEEE-754
rounding.  Dictionaries are association lists; Python dictionaries cannot
contain duplicate keys, and all dictionaries considered here are assumed
duplicate-free (lookups take the first match).

Effects are made explicit: the environment is a function from variable names
to optional strings, the HTTP transport is a function from (url, api key) to a
`TransportOutcome` (with `json.loads` folded into the outcome: `body = none`
models a `JSONDecodeError`), and exceptions are `Except` errors.  The Python
`while` loop of `fetch_timeseries` has no termination guarantee (a server
could keep raising `lastPage` forever), so the embedded loop takes a fuel
parameter; all results hold for sufficient fuel.
-/

namespace Fingrid

/-- Python float values: exact rational finite values, signed infinity, NaN. -/
inductive PFloat where
  | finite (q : Rat)
  | inf (neg : Bool)
  | nan
deriving Repr, DecidableEq

/-- Python values as decoded by `json.loads` (plus `None`). -/
inductive PyVal where
  | none
  | vbool (b : Bool)
  | vint (n : Int)
  | vfloat (f : PFloat)
  | vstr (s : String)
  | vlist (xs : List PyVal)
  | vdict (kvs : List (String × PyVal))

/-- Python `x is None`. -/
def pyIsNone : PyVal → Bool
  | .none => true
  | _ => false

/-- Python `dict.get(k)` restricted to string keys: `some v` iff the key is
present (even when it maps to `None`).  Dictionaries are duplicate-free. -/
def dget (kvs : List (String × PyVal)) (k : String) : Option PyVal :=
  (kvs.find? (fun kv => kv.1 == k)).map (fun kv => kv.2)

/-- Python truthiness (`bool(x)`) for the modelled values. -/
def pyTruthy : PyVal → Bool
  | .none => false
  | .vbool b => b
  | .vint n => n != 0
  | .vfloat (.finite q) => q != 0
  | .vfloat _ => true
  | .vstr s => s != ""
  | .vlist xs => !xs.isEmpty
  | .vdict kvs => !kvs.isEmpty

/-! ## config.py -/

def API_BASE_URL : String := "https://data.fingrid.fi/api"

def API_KEY_ENV_VAR : String := "FINGRID_API_KEY"

def DEFAULT_PAGE_SIZE : Nat := 10000

/-- Python `a or b` on optional strings (`None` and `""` are falsy). -/
def pyOrStr (a b : Option String) : Option String :=
  match a with
  | Option.some s => if s = "" then b else Option.some s
  | Option.none => b

/-- `config.get_api_key`: first truthy value among the three environment
variables, in order `FINGRID_API_KEY`, `FINGRID_OPENDATA_API_KEY`,
`API_KEY`. -/
def get_api_key (env : String → Option String) : Option String :=
  pyOrStr (env API_KEY_ENV_VAR) (pyOrStr (env "FINGRID_OPENDATA_API_KEY") (env "API_KEY"))

/-! ## api_client.py : URL construction -/

/-- `api_client._build_url`: the paginated query URL. -/
def build_url (dataset_ids : List String) (start_time : String) (end_time : String)
    (page : Nat) : String :=
  API_BASE_URL ++ "/data" ++ "?datasets=" ++ String.intercalate "," dataset_ids
    ++ "&startTime=" ++ start_time ++ "&endTime=" ++ end_time
    ++ "&pageSize=" ++ toString DEFAULT_PAGE_SIZE ++ "&page=" ++ toString page

/-- C9: The URL builder is a pure function: for every dataset-ID list, start
time, end time, and page number, identical inputs always produce the identical
URL string (a Lean function, so referential transparency is definitional), and
that string is the base URL plus `/data` followed by the query parameters
`datasets` (comma-joined IDs), `startTime`, `endTime`, `pageSize` (the fixed
page-size constant `10000`), and `page`, in that order. -/
theorem build_url_spec (dataset_ids : List String) (start_time end_time : String)
    (page : Nat) :
    build_url dataset_ids start_time end_time page =
      "https://data.fingrid.fi/api/data?datasets="
        ++ String.intercalate "," dataset_ids
        ++ "&startTime=" ++ start_time
        ++ "&endTime=" ++ end_time
        ++ "&pageSize=" ++ "10000"
        ++ "&page=" ++ toString page := by
  show API_BASE_URL ++ "/data" ++ "?datasets=" ++ String.intercalate "," dataset_ids
      ++ "&startTime=" ++ start_time ++ "&endTime=" ++ end_time
      ++ "&pageSize=" ++ toString DEFAULT_PAGE_SIZE ++ "&page=" ++ toString page = _
  rw [show API_BASE_URL ++ "/data" ++ "?datasets=" =
        "https://data.fingrid.fi/api/data?datasets=" from rfl,
      show toString DEFAULT_PAGE_SIZE = "10000" from rfl]

/-! ## datetime: the subset of `datetime.datetime` the normalizer relies on

`datetime.fromisoformat` is modelled after its CPython ≤ 3.10 implementation
(`_parse_isoformat_date` / `_parse_isoformat_time`), the grammar the source's
`Z`/`+00:00` replacements are written against. -/

/-- A `datetime.datetime`: calendar fields plus an optional fixed UTC offset
in microseconds (`none` = naive). -/
structure PyDatetime where
  year : Nat
  month : Nat
  day : Nat
  hour : Nat
  minute : Nat
  second : Nat
  micro : Nat
  tzOffsetMicros : Option Int
deriving Repr, DecidableEq

def isLeap (y : Nat) : Bool :=
  (y % 4 == 0 && y % 100 != 0) || y % 400 == 0

def daysInMonth (y m : Nat) : Nat :=
  if m == 2 then (if isLeap y then 29 else 28)
  else if m == 4 || m == 6 || m == 9 || m == 11 then 30
  else 31

def digitVal (c : Char) : Option Nat :=
  if c.isDigit then Option.some (c.toNat - 48) else Option.none

def parseDigitsAux : Nat → Nat → List Char → Option (Nat × List Char)
  | 0, acc, cs => some (acc, cs)
  | _ + 1, _, [] => Option.none
  | n + 1, acc, c :: cs =>
    match digitVal c with
    | some d => parseDigitsAux n (acc * 10 + d) cs
    | Option.none => Option.none

/-- Exactly `n` decimal digits. -/
def parseNDigits (n : Nat) (cs : List Char) : Option (Nat × List Char) :=
  parseDigitsAux n 0 cs

def expectChar (c : Char) : List Char → Option (List Char)
  | d :: cs => if d = c then some cs else Option.none
  | [] => Option.none

/-- CPython `_parse_hh_mm_ss_ff`: `HH[:MM[:SS[.fff|.ffffff]]]`, returning
(hour, minute, second, microseconds). -/
def parseHMSF (cs : List Char) : Option (Nat × Nat × Nat × Nat) :=
  match parseNDigits 2 cs with
  | Option.none => Option.none
  | some (hh, rest) =>
    match rest with
    | [] => some (hh, 0, 0, 0)
    | c1 :: rest1 =>
      if c1 ≠ ':' then Option.none
      else match parseNDigits 2 rest1 with
        | Option.none => Option.none
        | some (mm, rest2) =>
          match rest2 with
          | [] => some (hh, mm, 0, 0)
          | c2 :: rest3 =>
            if c2 ≠ ':' then Option.none
            else match parseNDigits 2 rest3 with
              | Option.none => Option.none
              | some (ss, rest4) =>
                match rest4 with
                | [] => some (hh, mm, ss, 0)
                | c3 :: rest5 =>
                  if c3 ≠ '.' then Option.none
                  else if rest5.length = 3 then
                    (parseNDigits 3 rest5).map (fun p => (hh, mm, ss, p.1 * 1000))
                  else if rest5.length = 6 then
                    (parseNDigits 6 rest5).map (fun p => (hh, mm, ss, p.1))
                  else Option.none

/-- CPython time-zone scan: the time string is cut at the first `-`, else the
first `+`; returns (time part, negative sign?, offset part). -/
def tzSplit (cs : List Char) : Option (List Char × Bool × List Char) :=
  match cs.findIdx? (fun c => c = '-') with
  | some i => some (cs.take i, true, cs.drop (i + 1))
  | Option.none =>
    match cs.findIdx? (fun c => c = '+') with
    | some i => some (cs.take i, false, cs.drop (i + 1))
    | Option.none => Option.none

/-- The time-of-day part of `fromisoformat`, returning
(hour, minute, second, micro, optional tz offset in microseconds). -/
def parseIsoTime (cs : List Char) : Option (Nat × Nat × Nat × Nat × Option Int) :=
  match tzSplit cs with
  | Option.none =>
    (parseHMSF cs).map (fun p => (p.1, p.2.1, p.2.2.1, p.2.2.2, Option.none))
  | some (tcs, neg, zcs) =>
    match parseHMSF tcs with
    | Option.none => Option.none
    | some (h, mi, sec, f) =>
      -- CPython requires the offset substring to be HH:MM, HH:MM:SS or
      -- HH:MM:SS.ffffff, and `timezone` requires |offset| < 24 hours.
      if zcs.length = 5 ∨ zcs.length = 8 ∨ zcs.length = 15 then
        match parseHMSF zcs with
        | Option.none => Option.none
        | some (zh, zm, zs, zf) =>
          let total : Int := ((zh * 3600 + zm * 60 + zs : Nat) : Int) * 1000000 + (zf : Int)
          if total < 86400000000 then
            some (h, mi, sec, f, some (if neg then -total else total))
          else Option.none
      else Option.none

/-- `datetime.fromisoformat` (CPython ≤ 3.10 grammar):
`YYYY-MM-DD[<sep>HH[:MM[:SS[.fff|.ffffff]]][±HH:MM[:SS[.ffffff]]]]`,
with the `datetime` constructor's range validation. -/
def fromisoformat (s : String) : Option PyDatetime :=
  let cs := s.data
  match parseNDigits 4 cs with
  | Option.none => Option.none
  | some (y, r1) =>
    match expectChar '-' r1 with
    | Option.none => Option.none
    | some r2 =>
      match parseNDigits 2 r2 with
      | Option.none => Option.none
      | some (mo, r3) =>
        match expectChar '-' r3 with
        | Option.none => Option.none
        | some r4 =>
          match parseNDigits 2 r4 with
          | Option.none => Option.none
          | some (d, r5) =>
            let mk : Nat → Nat → Nat → Nat → Option Int → Option PyDatetime :=
              fun h mi sec f tz =>
                if 1 ≤ y ∧ y ≤ 9999 ∧ 1 ≤ mo ∧ mo ≤ 12 ∧ 1 ≤ d ∧ d ≤ daysInMonth y mo
                    ∧ h ≤ 23 ∧ mi ≤ 59 ∧ sec ≤ 59 then
                  some ⟨y, mo, d, h, mi, sec, f, tz⟩
                else Option.none
            match r5 with
            | [] => mk 0 0 0 0 Option.none
            | _sep :: rest =>
              -- any single separator character is accepted at index 10
              match parseIsoTime rest with
              | Option.none => Option.none
              | some (h, mi, sec, f, tz) => mk h mi sec f tz

def charsStartsWith : List Char → List Char → Bool
  | _, [] => true
  | [], _ :: _ => false
  | c :: cs, p :: ps => c == p && charsStartsWith cs ps

/-- Replace every non-overlapping occurrence of `pat`, left to right
(Python `str.replace` for a non-empty pattern; implemented here because the
core `String.replace` is compiler-opaque).  The fuel argument is the number
of characters still allowed to be consumed; each step consumes at least one,
so `l.length` fuel is always enough. -/
def replaceCharsAux (pat rep : List Char) : Nat → List Char → List Char
  | _, [] => []
  | 0, l => l
  | fuel + 1, c :: cs =>
    if charsStartsWith (c :: cs) pat ∧ pat ≠ [] then
      rep ++ replaceCharsAux pat rep fuel (cs.drop (pat.length - 1))
    else c :: replaceCharsAux pat rep fuel cs

def replaceChars (pat rep l : List Char) : List Char :=
  replaceCharsAux pat rep l.length l

def pyReplace (s pat rep : String) : String :=
  ⟨replaceChars pat.data rep.data s.data⟩

/-- The start/end-time parsing of `fetch_and_process`
(`data_service.py` lines 70–76): strip `Z` and `.000`, try the string with
`+00:00` removed, fall back to the unmodified replacement. -/
def parseTimeString (s : String) : Option PyDatetime :=
  let st := pyReplace (pyReplace s "Z" "+00:00") ".000" ""
  match fromisoformat (pyReplace st "+00:00" "") with
  | some d => some d
  | Option.none => fromisoformat st

/-! ## Python `float()` coercion -/

def isPyWs (c : Char) : Bool :=
  c == ' ' || c == '\t' || c == '\n' || c == '\x0d' || c == '\x0b' || c == '\x0c'

/-- Greedy parse of a Python `digitpart` (digits with single underscores
between digits); returns (value, digit count, rest). -/
def parseDigitPartAux : Nat → Nat → List Char → Nat × Nat × List Char
  | acc, cnt, [] => (acc, cnt, [])
  | acc, cnt, c :: cs =>
    match digitVal c with
    | some d => parseDigitPartAux (acc * 10 + d) (cnt + 1) cs
    | Option.none =>
      if c = '_' then
        match cs with
        | c2 :: cs2 =>
          match digitVal c2 with
          | some d => parseDigitPartAux (acc * 10 + d) (cnt + 1) cs2
          | Option.none => (acc, cnt, c :: cs)
        | [] => (acc, cnt, c :: cs)
      else (acc, cnt, c :: cs)

def parseSign : List Char → Bool × List Char
  | '+' :: cs => (false, cs)
  | '-' :: cs => (true, cs)
  | cs => (false, cs)

def pfOfParts (neg : Bool) (ipart fpart fcnt : Nat) (ex : Int) : PFloat :=
  let mag : Rat := ((ipart : Rat) + (fpart : Rat) / ((10 : Rat) ^ fcnt)) * (10 : Rat) ^ ex
  .finite (if neg then -mag else mag)

/-- Python `float(str)`: optional sign, `inf`/`infinity`/`nan`
(case-insensitive) or a decimal literal with optional fraction and exponent.
The numeric value is kept exact (no IEEE-754 rounding or overflow; no claim
below depends on the represented magnitude). -/
def parseFloatString (s : String) : Option PFloat :=
  let cs := ((s.data.dropWhile isPyWs).reverse.dropWhile isPyWs).reverse
  let sr := parseSign cs
  let neg := sr.1
  let low := sr.2.map Char.toLower
  if low == "inf".data || low == "infinity".data then some (.inf neg)
  else if low == "nan".data then some .nan
  else
    let ir := parseDigitPartAux 0 0 sr.2
    let fr : Nat × Nat × List Char :=
      match ir.2.2 with
      | '.' :: rest => parseDigitPartAux 0 0 rest
      | r1 => (0, 0, r1)
    if ir.2.1 + fr.2.1 = 0 then Option.none
    else
      match fr.2.2 with
      | [] => some (pfOfParts neg ir.1 fr.1 fr.2.1 0)
      | c :: rest =>
        if c == 'e' || c == 'E' then
          let er := parseSign rest
          let dr := parseDigitPartAux 0 0 er.2
          if dr.2.1 = 0 || !dr.2.2.isEmpty then Option.none
          else
            some (pfOfParts neg ir.1 fr.1 fr.2.1
              (if er.1 then -(dr.1 : Int) else (dr.1 : Int)))
        else Option.none

/-- Python `float(x)`: numbers pass through (bools are 0/1), strings are
parsed, everything else (`None`, lists, dicts) raises and yields `none`. -/
def pyFloat : PyVal → Option PFloat
  | .vbool b => some (.finite (if b then 1 else 0))
  | .vint n => some (.finite (n : Rat))
  | .vfloat f => some f
  | .vstr s => parseFloatString s
  | _ => Option.none

/-! ## Python `str()` -/

/-- `str()` of a float.  CPython prints the shortest round-tripping decimal;
this model prints `<int>.0` for integral values and `num/den` otherwise.  The
difference is unobservable in the claims (no claim inspects the rendering of a
float-valued `datasetId`). -/
def pfStr : PFloat → String
  | .nan => "nan"
  | .inf neg => if neg then "-inf" else "inf"
  | .finite q => if q.den = 1 then toString q.num ++ ".0" else toString q.num ++ "/" ++ toString q.den

mutual

/-- Python `repr()` (string quoting/escaping modelled without escape
sequences; unobservable in the claims). -/
def pyRepr : PyVal → String
  | .none => "None"
  | .vbool b => if b then "True" else "False"
  | .vint n => toString n
  | .vfloat f => pfStr f
  | .vstr s => "\x27" ++ s ++ "\x27"
  | .vlist xs => "[" ++ pyReprList xs ++ "]"
  | .vdict kvs => "\x7b" ++ pyReprKvs kvs ++ "\x7d"

def pyReprList : List PyVal → String
  | [] => ""
  | [x] => pyRepr x
  | x :: y :: xs => pyRepr x ++ ", " ++ pyReprList (y :: xs)

def pyReprKvs : List (String × PyVal) → String
  | [] => ""
  | [(k, v)] => "\x27" ++ k ++ "\x27: " ++ pyRepr v
  | (k, v) :: kv :: kvs => "\x27" ++ k ++ "\x27: " ++ pyRepr v ++ ", " ++ pyReprKvs (kv :: kvs)

end

/-- Python `str()`: identity on strings, `repr` otherwise (for the value
kinds modelled here). -/
def pyStr : PyVal → String
  | .vstr s => s
  | v => pyRepr v

/-! ## services/data_service.py : the Response Normalizer -/

/-- The value bound to `dt_start`/`dt_end` in the record loop: a parsed
`datetime` when the field was a string, otherwise the raw non-string value
(the source assigns `dt_start = st` unchanged in that case). -/
inductive TimeVal where
  | dt (d : PyDatetime)
  | py (v : PyVal)

/-- The row dictionary built by `fetch_and_process`:
`{'start_time': ..., 'end_time': ..., 'value': float, 'dataset_id': str}`. -/
structure Row where
  start_time : TimeVal
  end_time : TimeVal
  value : PFloat
  dataset_id : String

/-- `dt_start` in the record loop: a string start time is parsed
(`ValueError` → `none`), any other value is taken verbatim. -/
def parseStartVal : PyVal → Option TimeVal
  | .vstr s => (parseTimeString s).map TimeVal.dt
  | v => some (.py v)

/-- `dt_end` in the record loop: `if et and isinstance(et, str)` parses the
string, everything else defaults to `dt_start`. -/
def parseEndVal (dtStart : TimeVal) : PyVal → Option TimeVal
  | .vstr s => if s ≠ "" then (parseTimeString s).map TimeVal.dt else some dtStart
  | _ => some dtStart

/-- `str(item.get("datasetId", dataset_id))` (the fallback is already a
string, so `str` leaves it unchanged). -/
def rowDatasetId (kvs : List (String × PyVal)) (dataset_id : String) : String :=
  match dget kvs "datasetId" with
  | some v => pyStr v
  | Option.none => dataset_id

/-- One iteration of the record loop of `fetch_and_process`
(`data_service.py` lines 63–93) on a dict record: `none` models `continue`
(the record is dropped, by the explicit checks or by a caught
`TypeError`/`ValueError`), `some row` models `rows.append(...)`. -/
def normalizeRecord (kvs : List (String × PyVal)) (dataset_id : String) : Option Row :=
  let st := (dget kvs "startTime").getD .none
  let et := (dget kvs "endTime").getD .none
  let value := (dget kvs "value").getD .none
  if pyIsNone st || pyIsNone value then Option.none
  else
    match parseStartVal st with
    | Option.none => Option.none          -- ValueError from fromisoformat → continue
    | some dtStart =>
      match parseEndVal dtStart et with
      | Option.none => Option.none        -- ValueError on the end time → continue
      | some dtEnd =>
        match pyFloat value with
        | Option.none => Option.none      -- float(value) TypeError/ValueError → continue
        | some fv => some ⟨dtStart, dtEnd, fv, rowDatasetId kvs dataset_id⟩

/-- Uncaught Python exceptions of the normalizer. -/
inductive PyErr where
  | typeError
  | attributeError
deriving Repr, DecidableEq

/-- The record loop over the raw list.  A non-dict item raises
`AttributeError` at `item.get` — the loop's `except (TypeError, ValueError)`
does not catch it, so the whole operation fails. -/
def processItems : List PyVal → String → Except PyErr (List Row)
  | [], _ => .ok []
  | item :: rest, dataset_id =>
    match item with
    | .vdict kvs =>
      match processItems rest dataset_id with
      | .error e => .error e
      | .ok rs =>
        match normalizeRecord kvs dataset_id with
        | some r => .ok (r :: rs)
        | Option.none => .ok rs
    | _ => .error .attributeError

/-! ## Python comparison semantics used by `rows.sort` -/

/-- Numeric view: Python treats bool as int for comparisons. -/
def toNum? : PyVal → Option PFloat
  | .vbool b => some (.finite (if b then 1 else 0))
  | .vint n => some (.finite (n : Rat))
  | .vfloat f => some f
  | _ => Option.none

/-- Python `<` on numbers (any comparison with NaN is false). -/
def pfLtB : PFloat → PFloat → Bool
  | .nan, _ => false
  | _, .nan => false
  | .inf n1, .inf n2 => n1 && !n2
  | .inf n1, .finite _ => n1
  | .finite _, .inf n2 => !n2
  | .finite a, .finite b => decide (a < b)

/-- Python `==` on numbers (NaN is not equal to anything). -/
def pfEqB : PFloat → PFloat → Bool
  | .nan, _ => false
  | _, .nan => false
  | .inf a, .inf b => a == b
  | .finite a, .finite b => decide (a = b)
  | _, _ => false

mutual

/-- Python `==` on values (total; cross-type comparisons are `False`).
Dict equality is key-set based, here via mutual lookups on duplicate-free
association lists. -/
def pyEqVal : PyVal → PyVal → Bool
  | .none, .none => true
  | .vstr s, .vstr t => s == t
  | .vlist xs, .vlist ys => pyEqList xs ys
  | .vdict a, .vdict b => a.length == b.length && pyEqSub a b
  | a, b =>
    match toNum? a, toNum? b with
    | some x, some y => pfEqB x y
    | _, _ => false

def pyEqList : List PyVal → List PyVal → Bool
  | [], [] => true
  | x :: xs, y :: ys => pyEqVal x y && pyEqList xs ys
  | _, _ => false

def pyEqSub : List (String × PyVal) → List (String × PyVal) → Bool
  | [], _ => true
  | (k, v) :: rest, b => pyEqFind k v b && pyEqSub rest b

def pyEqFind : String → PyVal → List (String × PyVal) → Bool
  | _, _, [] => false
  | k, v, (k2, w) :: rest => if k = k2 then pyEqVal v w else pyEqFind k v rest

end

mutual

/-- Python `<` on values: numbers compare numerically, strings by code
point, lists lexicographically; anything else (dicts, `None`, cross-type)
raises `TypeError`. -/
def pyLtVal : PyVal → PyVal → Except PyErr Bool
  | .vstr s, .vstr t => .ok (decide (s < t))
  | .vlist xs, .vlist ys => pyLtList xs ys
  | a, b =>
    match toNum? a, toNum? b with
    | some x, some y => .ok (pfLtB x y)
    | _, _ => .error .typeError

def pyLtList : List PyVal → List PyVal → Except PyErr Bool
  | [], [] => .ok false
  | [], _ :: _ => .ok true
  | _ :: _, [] => .ok false
  | x :: xs, y :: ys => if pyEqVal x y then pyLtList xs ys else pyLtVal x y

end

/-- The seven-tuple `datetime` comparison fields. -/
def dtFields (d : PyDatetime) : List Nat :=
  [d.year, d.month, d.day, d.hour, d.minute, d.second, d.micro]

/-- Lexicographic `<` on `List Nat` (Python tuple comparison on the
datetime fields). -/
def lexLtNat : List Nat → List Nat → Bool
  | [], [] => false
  | [], _ :: _ => true
  | _ :: _, [] => false
  | a :: as, b :: bs => if a < b then true else if b < a then false else lexLtNat as bs

/-- Civil-calendar day number (Howard Hinnant's algorithm); monotone in the
calendar date over the validated range. -/
def daysFromCivil (y m d : Nat) : Int :=
  let y' : Int := (y : Int) - (if m ≤ 2 then 1 else 0)
  let era : Int := (if 0 ≤ y' then y' else y' - 399) / 400
  let yoe : Int := y' - era * 400
  let mp : Int := ((m : Int) + 9) % 12
  let doy : Int := (153 * mp + 2) / 5 + (d : Int) - 1
  let doe : Int := yoe * 365 + yoe / 4 - yoe / 100 + doy
  era * 146097 + doe - 719468

def epochMicros (d : PyDatetime) : Int :=
  daysFromCivil d.year d.month d.day * 86400000000
    + ((d.hour * 3600 + d.minute * 60 + d.second : Nat) : Int) * 1000000 + (d.micro : Int)

/-- Python `datetime < datetime`: naive pairs compare field-wise, aware pairs
compare UTC instants, naive/aware mixes raise `TypeError`. -/
def dtLtB (a b : PyDatetime) : Except PyErr Bool :=
  match a.tzOffsetMicros, b.tzOffsetMicros with
  | Option.none, Option.none => .ok (lexLtNat (dtFields a) (dtFields b))
  | some oa, some ob => .ok (decide (epochMicros a - oa < epochMicros b - ob))
  | _, _ => .error .typeError

/-- Python `<` on the sort keys (`datetime` versus anything non-`datetime`
raises `TypeError`). -/
def tvLt (a b : TimeVal) : Except PyErr Bool :=
  match a, b with
  | .dt x, .dt y => dtLtB x y
  | .py v, .py w => pyLtVal v w
  | _, _ => .error .typeError

/-! ## `rows.sort(key=lambda r: r["start_time"])`

Python's list sort is a stable comparison sort driven by `<` on the keys.
It is modelled by a stable insertion sort: for keys on which `<` is a strict
total order (in particular the all-naive-datetime case of the theorems below)
every stable comparison sort computes the same list, and a comparison that
raises surfaces as the same uncaught `TypeError` (the exact set of key pairs
a raising run compares may differ from CPython's timsort, but any comparison
between an ill-matched key pair raises in both). -/

def insertRow (x : Row) : List Row → Except PyErr (List Row)
  | [] => .ok [x]
  | y :: ys =>
    match tvLt x.start_time y.start_time with
    | .error e => .error e
    | .ok true => .ok (x :: y :: ys)
    | .ok false =>
      match insertRow x ys with
      | .error e => .error e
      | .ok r => .ok (y :: r)

def sortRowsAux : List Row → List Row → Except PyErr (List Row)
  | acc, [] => .ok acc
  | acc, x :: xs =>
    match insertRow x acc with
    | .error e => .error e
    | .ok acc2 => sortRowsAux acc2 xs

def sortRows (l : List Row) : Except PyErr (List Row) :=
  sortRowsAux [] l

/-- The normalization section of `fetch_and_process`
(`data_service.py` lines 62–94): the record loop followed by
`rows.sort(key=lambda r: r["start_time"])`. -/
def process_rows (raw : List PyVal) (dataset_id : String) : Except PyErr (List Row) :=
  match processItems raw dataset_id with
  | .error e => .error e
  | .ok pre => sortRows pre

/-! ## api_client.py : the Fetch Loop

The HTTP layer is an oracle `transport : url → api key → TransportOutcome`.
`json.loads` is folded into the outcome of a successful exchange: `body =
none` models a body that raises `JSONDecodeError`, `body = some v` a body
decoding to `v`. -/

inductive TransportOutcome where
  | ok (status : Nat) (body : Option PyVal)
  | httpError (code : Nat) (msg : String)
  | urlError (reason : String)
  | timedOut
  | osError (msg : String)

/-- The error taxonomy of `api_client.py`.  `outOfFuel` is a modelling
artifact: the Python `while` loop has no termination bound, so the embedding
runs on fuel (every theorem below supplies enough). -/
inductive FetchError where
  | missingAPIKey
  | networkError (msg : String)
  | rateLimitError
  | apiResponseError (msg : String) (status_code : Option Nat)
  | pyError (e : PyErr)
  | outOfFuel
deriving Repr, DecidableEq

/-- One request/response exchange of the loop body
(`api_client.py` lines 91–134): HTTP error classification, JSON decoding and
response-shape validation.  On success returns the response dict's entries
and its `data` list. -/
def fetchStep (t : TransportOutcome) : Except FetchError (List (String × PyVal) × List PyVal) :=
  match t with
  | .httpError code msg =>
    if code = 429 then .error .rateLimitError
    else .error (.apiResponseError (s!"API error: {code} - " ++ msg) (some code))
  | .urlError reason =>
    .error (.networkError (s!"Network error: {reason}. Check your connection and that " ++
      "https://data.fingrid.fi is reachable."))
  | .timedOut => .error (.networkError "Request timed out. Try again later.")
  | .osError m => .error (.networkError ("Connection error: " ++ m))
  | .ok status body =>
    if status = 429 then .error .rateLimitError
    else if status ≠ 200 then .error (.apiResponseError s!"API returned status {status}" (some status))
    else
      match body with
      | Option.none => .error (.apiResponseError "Invalid API response (not JSON)" Option.none)
      | some response =>
        match response with
        | .vdict kvs =>
          match (dget kvs "data").getD .none with
          | .none => .error (.apiResponseError "API response missing \x27data\x27 field." Option.none)
          | .vlist data => .ok (kvs, data)
          | _ => .error (.apiResponseError "API \x27data\x27 field is not a list." Option.none)
        | _ => .error (.apiResponseError "Invalid API response structure." Option.none)

/-- Python `page >= last_page` where `page` is an int and `last_page` an
arbitrary value (`TypeError` unless `last_page` is a number). -/
def pyGeInt (page : Nat) (v : PyVal) : Except PyErr Bool :=
  match toNum? v with
  | some f => .ok (pfLtB f (.finite (page : Rat)) || pfEqB (.finite (page : Rat)) f)
  | Option.none => .error .typeError

/-- An instrumented run of the fetch loop: the page/URL of every request
issued, in order, and the final outcome. -/
structure FetchResult where
  requests : List (Nat × String)
  outcome : Except FetchError (List PyVal)

/-- The `while True` loop of `fetch_timeseries` (`api_client.py` lines
87–145), with pagination handling (`response.get("pagination") or {}`,
`pagination.get("lastPage", 1)`, `if page >= last_page: break`).  The
inter-page `time.sleep` has no observable effect in this model. -/
def fetchPages (transport : String → String → TransportOutcome)
    (dataset_ids : List String) (start_time end_time api_key : String) :
    Nat → Nat → List PyVal → List (Nat × String) → FetchResult
  | 0, _, _, log => ⟨log.reverse, .error .outOfFuel⟩
  | fuel + 1, page, all_data, log =>
    let url := build_url dataset_ids start_time end_time page
    let log2 := (page, url) :: log
    match fetchStep (transport url api_key) with
    | .error e => ⟨log2.reverse, .error e⟩
    | .ok (kvs, data) =>
      let all_data2 := all_data ++ data
      -- `pagination = response.get("pagination") or {}`; a truthy non-dict
      -- makes the subsequent `.get` raise AttributeError
      let pag? : Except PyErr (List (String × PyVal)) :=
        let pgv := (dget kvs "pagination").getD .none
        if pyTruthy pgv then
          match pgv with
          | .vdict pkvs => .ok pkvs
          | _ => .error .attributeError
        else .ok []
      match pag? with
      | .error e => ⟨log2.reverse, .error (.pyError e)⟩
      | .ok pkvs =>
        let last_page : PyVal :=
          match dget pkvs "lastPage" with
          | some v => v
          | Option.none => .vint 1
        match pyGeInt page last_page with
        | .error e => ⟨log2.reverse, .error (.pyError e)⟩
        | .ok true => ⟨log2.reverse, .ok all_data2⟩
        | .ok false =>
          fetchPages transport dataset_ids start_time end_time api_key fuel
            (page + 1) all_data2 log2

/-- `api_client.fetch_timeseries`: credential check, then the paginated
loop starting at page 1 with an empty accumulator. -/
def fetch_timeseries (env : String → Option String)
    (transport : String → String → TransportOutcome)
    (dataset_ids : List String) (start_time end_time : String) (fuel : Nat) : FetchResult :=
  match get_api_key env with
  | Option.none => ⟨[], .error .missingAPIKey⟩
  | some k =>
    if k = "" then ⟨[], .error .missingAPIKey⟩   -- `if not api_key`
    else fetchPages transport dataset_ids start_time end_time k fuel 1 [] []

/-! ## Credential resolution (C5, C10) -/

/-- A credential environment variable that Python treats as unavailable:
unset, or set to the empty string. -/
def emptyEnvVal (o : Option String) : Prop :=
  o = Option.none ∨ o = some ""

/-- C5: When no API credential is resolvable, `fetch_timeseries` raises
`MissingAPIKeyError` (the spec's `MissingCredential`) and issues zero
requests: the request log is empty, so no HTTP call is attempted. -/
theorem missing_credential_short_circuit (env : String → Option String)
    (transport : String → String → TransportOutcome)
    (dataset_ids : List String) (start_time end_time : String) (fuel : Nat)
    (h : get_api_key env = Option.none ∨ get_api_key env = some "") :
    fetch_timeseries env transport dataset_ids start_time end_time fuel =
      ⟨[], .error .missingAPIKey⟩ := by
  rcases h with h | h <;> simp [fetch_timeseries, h]

/-- Witness for C5 at a concrete (empty) environment. -/
theorem missing_credential_short_circuit_witness :
    fetch_timeseries (fun _ => Option.none) (fun _ _ => .ok 200 Option.none)
      ["193"] "2024-01-01T00:00" "2024-01-02T00:00" 5 = ⟨[], .error .missingAPIKey⟩ :=
  missing_credential_short_circuit _ _ _ _ _ _ (Or.inl rfl)

lemma fetchStep_ne_missing (t : TransportOutcome) :
    fetchStep t ≠ .error .missingAPIKey := by
  intro h
  unfold fetchStep at h
  repeat' split at h
  all_goals simp_all

lemma fetchPages_ne_missing (transport : String → String → TransportOutcome)
    (dataset_ids : List String) (start_time end_time api_key : String) :
    ∀ (fuel page : Nat) (acc : List PyVal) (log : List (Nat × String)),
      (fetchPages transport dataset_ids start_time end_time api_key fuel page acc log).outcome ≠
        .error .missingAPIKey := by
  intro fuel
  induction fuel with
  | zero => intro page acc log; simp [fetchPages]
  | succ n ih =>
    intro page acc log
    rw [fetchPages]
    rcases hstep : fetchStep (transport (build_url dataset_ids start_time end_time page) api_key)
      with e | pr
    · simp only [hstep]
      intro hc
      have he : e = FetchError.missingAPIKey := by injection hc
      exact fetchStep_ne_missing _ (by rw [hstep, he])
    · obtain ⟨kvs, data⟩ := pr
      simp only [hstep]
      repeat' split
      all_goals first
        | exact ih _ _ _
        | simp

lemma get_api_key_empty_iff (env : String → Option String) :
    (get_api_key env = Option.none ∨ get_api_key env = some "") ↔
      (emptyEnvVal (env "FINGRID_API_KEY") ∧ emptyEnvVal (env "FINGRID_OPENDATA_API_KEY") ∧
        emptyEnvVal (env "API_KEY")) := by
  unfold get_api_key emptyEnvVal API_KEY_ENV_VAR
  rcases env "FINGRID_API_KEY" with _ | a <;>
    rcases env "FINGRID_OPENDATA_API_KEY" with _ | b <;>
    rcases env "API_KEY" with _ | c <;>
    simp [pyOrStr] <;> try (split_ifs <;> simp_all)

/-- C10: Credential resolution checks `FINGRID_API_KEY`,
`FINGRID_OPENDATA_API_KEY` and `API_KEY` in that order and returns the first
one set to a non-empty string (an empty string counting as unset), and
`fetch_timeseries` fails with `MissingAPIKeyError` exactly when all three are
unset or empty. -/
theorem credential_resolution (env : String → Option String)
    (transport : String → String → TransportOutcome)
    (dataset_ids : List String) (start_time end_time : String) (fuel : Nat) :
    ((fetch_timeseries env transport dataset_ids start_time end_time fuel).outcome =
        .error .missingAPIKey ↔
      (emptyEnvVal (env "FINGRID_API_KEY") ∧ emptyEnvVal (env "FINGRID_OPENDATA_API_KEY") ∧
        emptyEnvVal (env "API_KEY"))) ∧
    (∀ k, env "FINGRID_API_KEY" = some k → k ≠ "" → get_api_key env = some k) ∧
    (∀ k, emptyEnvVal (env "FINGRID_API_KEY") → env "FINGRID_OPENDATA_API_KEY" = some k →
      k ≠ "" → get_api_key env = some k) ∧
    (emptyEnvVal (env "FINGRID_API_KEY") → emptyEnvVal (env "FINGRID_OPENDATA_API_KEY") →
      get_api_key env = env "API_KEY") := by
  refine ⟨?_, ?_, ?_, ?_⟩
  · rw [← get_api_key_empty_iff]
    constructor
    · intro h
      by_contra hk
      push_neg at hk
      obtain ⟨h1, h2⟩ := hk
      rcases hg : get_api_key env with _ | k
      · exact h1 hg
      · have hke : k ≠ "" := fun he => h2 (by rw [hg, he])
        unfold fetch_timeseries at h
        rw [hg] at h
        simp only [hke, if_false, reduceIte] at h
        exact fetchPages_ne_missing _ _ _ _ _ _ _ _ _ h
    · intro h
      rw [missing_credential_short_circuit env transport dataset_ids start_time end_time fuel h]
  · intro k hk hne
    unfold get_api_key API_KEY_ENV_VAR
    rw [hk]
    simp [pyOrStr, hne]
  · intro k h1 hk hne
    unfold get_api_key API_KEY_ENV_VAR
    unfold emptyEnvVal at h1
    rcases h1 with h1 | h1 <;> rw [h1, hk] <;> simp [pyOrStr, hne]
  · intro h1 h2
    unfold get_api_key API_KEY_ENV_VAR
    unfold emptyEnvVal at h1 h2
    rcases h1 with h1 | h1 <;> rcases h2 with h2 | h2 <;> rw [h1, h2] <;>
      rcases hc : env "API_KEY" with _ | c <;> simp [pyOrStr]

/-- Witness for C10 at a concrete environment: `FINGRID_API_KEY` empty,
`FINGRID_OPENDATA_API_KEY` set. -/
theorem credential_resolution_witness :
    get_api_key (fun k => if k = "FINGRID_API_KEY" then some "" else
      if k = "FINGRID_OPENDATA_API_KEY" then some "fallback" else Option.none) =
      some "fallback" :=
  (credential_resolution (fun k => if k = "FINGRID_API_KEY" then some "" else
      if k = "FINGRID_OPENDATA_API_KEY" then some "fallback" else Option.none)
      (fun _ _ => .ok 200 Option.none) ["193"] "S" "E" 1).2.2.1
    "fallback" (Or.inr (by simp)) (by simp) (by simp)

/-! ## The pagination loop (C1, C4) -/

lemma pyGeInt_vint (page : Nat) (m : Int) :
    pyGeInt page (.vint m) = .ok (decide (m ≤ (page : Int))) := by
  simp only [pyGeInt, toNum?, pfLtB, pfEqB]
  congr 1
  by_cases h : m ≤ (page : Int)
  · rcases lt_or_eq_of_le h with h' | h'
    · have hr : (m : Rat) < ((page : Nat) : Rat) := by exact_mod_cast h'
      simp [hr, h]
    · have hr : ((page : Nat) : Rat) = (m : Rat) := by exact_mod_cast h'.symm
      simp [hr, h]
  · have h1 : ¬ (m : Rat) < ((page : Nat) : Rat) := by
      intro hc
      exact h (by exact_mod_cast le_of_lt hc)
    have h2 : ¬ ((page : Nat) : Rat) = (m : Rat) := by
      intro hc
      exact h (le_of_eq (by exact_mod_cast hc.symm))
    simp [h1, h2, h]

/-- A page exchange as assumed by the pagination claims: HTTP 200, a JSON
object body whose `data` is the list `d` and whose `pagination` object
carries the integer `lastPage = n`. -/
def GoodPage (transport : String → String → TransportOutcome) (dataset_ids : List String)
    (start_time end_time api_key : String) (p n : Nat) (d : List PyVal) : Prop :=
  ∃ kvs pkvs,
    transport (build_url dataset_ids start_time end_time p) api_key =
      .ok 200 (some (.vdict kvs)) ∧
    dget kvs "data" = some (.vlist d) ∧
    dget kvs "pagination" = some (.vdict pkvs) ∧
    dget pkvs "lastPage" = some (.vint (n : Int))

lemma dget_nil (k : String) : dget [] k = Option.none := rfl

lemma fetchPages_error_step {transport : String → String → TransportOutcome}
    {dataset_ids : List String} {start_time end_time api_key : String}
    {p : Nat} {err : FetchError}
    (he : fetchStep (transport (build_url dataset_ids start_time end_time p) api_key) =
      .error err)
    (fuel : Nat) (acc : List PyVal) (log : List (Nat × String)) :
    fetchPages transport dataset_ids start_time end_time api_key (fuel + 1) p acc log =
      ⟨((p, build_url dataset_ids start_time end_time p) :: log).reverse, .error err⟩ := by
  rw [fetchPages]
  simp only [he]

lemma fetchPages_good_step {transport : String → String → TransportOutcome}
    {dataset_ids : List String} {start_time end_time api_key : String}
    {p n : Nat} {d : List PyVal}
    (hg : GoodPage transport dataset_ids start_time end_time api_key p n d)
    (fuel : Nat) (acc : List PyVal) (log : List (Nat × String)) :
    fetchPages transport dataset_ids start_time end_time api_key (fuel + 1) p acc log =
      if n ≤ p then
        ⟨((p, build_url dataset_ids start_time end_time p) :: log).reverse, .ok (acc ++ d)⟩
      else
        fetchPages transport dataset_ids start_time end_time api_key fuel (p + 1) (acc ++ d)
          ((p, build_url dataset_ids start_time end_time p) :: log) := by
  obtain ⟨kvs, pkvs, ht, hdata, hpag, hlast⟩ := hg
  have hstep : fetchStep (transport (build_url dataset_ids start_time end_time p) api_key) =
      .ok (kvs, d) := by
    rw [ht]
    simp [fetchStep, hdata]
  have hpk : pkvs ≠ [] := by
    intro hnil
    rw [hnil, dget_nil] at hlast
    exact Option.noConfusion hlast
  have htr : (!pkvs.isEmpty) = true := by
    simp [List.isEmpty_iff, hpk]
  rw [fetchPages]
  simp only [hstep, hpag, Option.getD_some, pyTruthy, htr, if_true]
  simp only [hlast, pyGeInt_vint]
  by_cases hnp : n ≤ p
  · have hd : decide ((n : Int) ≤ (p : Int)) = true := by
      simp [hnp]
    simp only [hd, if_pos hnp]
  · have hd : decide ((n : Int) ≤ (p : Int)) = false := by
      simp [hnp]
    simp only [hd, if_neg hnp]

lemma fetchPages_good_advance {transport : String → String → TransportOutcome}
    {dataset_ids : List String} {start_time end_time api_key : String} {n : Nat}
    {d : Nat → List PyVal} :
    ∀ (j p : Nat) (acc : List PyVal) (log : List (Nat × String)) (fuel : Nat),
      (∀ q, p ≤ q → q < p + j → GoodPage transport dataset_ids start_time end_time api_key
        q n (d q)) →
      p + j ≤ n →
      fetchPages transport dataset_ids start_time end_time api_key (fuel + j) p acc log =
        fetchPages transport dataset_ids start_time end_time api_key fuel (p + j)
          (acc ++ ((List.range' p j).map d).flatten)
          (((List.range' p j).map
              (fun q => (q, build_url dataset_ids start_time end_time q))).reverse ++ log) := by
  intro j
  induction j with
  | zero => intro p acc log fuel _ _; simp
  | succ j ih =>
    intro p acc log fuel hgood hle
    have hstep := fetchPages_good_step
      (hgood p le_rfl (by omega)) (fuel + j) acc log
    rw [if_neg (by omega)] at hstep
    have heq : fuel + (j + 1) = (fuel + j) + 1 := by omega
    rw [heq, hstep]
    have := ih (p + 1) (acc ++ d p)
      ((p, build_url dataset_ids start_time end_time p) :: log) fuel
      (fun q hq1 hq2 => hgood q (by omega) (by omega)) (by omega)
    rw [this]
    congr 1
    · omega
    · rw [List.range'_succ, List.map_cons, List.flatten_cons, List.append_assoc]
    · rw [List.range'_succ, List.map_cons, List.reverse_cons, List.append_assoc]
      rfl

lemma fetchPages_good_run {transport : String → String → TransportOutcome}
    {dataset_ids : List String} {start_time end_time api_key : String} {n : Nat}
    {d : Nat → List PyVal} (fuel : Nat)
    (hgood : ∀ q, 1 ≤ q → q ≤ n → GoodPage transport dataset_ids start_time end_time api_key
      q n (d q))
    (hn : 1 ≤ n) (hfuel : n ≤ fuel) :
    fetchPages transport dataset_ids start_time end_time api_key fuel 1 [] [] =
      ⟨(List.range' 1 n).map (fun q => (q, build_url dataset_ids start_time end_time q)),
       .ok (((List.range' 1 n).map d).flatten)⟩ := by
  obtain ⟨f, rfl⟩ : ∃ f, fuel = (f + 1) + (n - 1) := ⟨fuel - n, by omega⟩
  rw [fetchPages_good_advance (n - 1) 1 [] [] (f + 1)
    (fun q hq1 hq2 => hgood q hq1 (by omega)) (by omega)]
  have hlast : GoodPage transport dataset_ids start_time end_time api_key
      (1 + (n - 1)) n (d (1 + (n - 1))) := hgood _ (by omega) (by omega)
  rw [fetchPages_good_step hlast f _ _, if_pos (by omega)]
  have hsplit : List.range' 1 n = List.range' 1 (n - 1) ++ [1 + (n - 1)] := by
    have : n = (n - 1) + 1 := by omega
    rw [this]
    simpa using @List.range'_concat 1 1 (n - 1)
  congr 1
  · rw [hsplit]
    simp
  · rw [hsplit]
    simp

/-- C1: For every dataset-ID list and time range, when every page response is
an object whose `pagination` object carries the integer `lastPage = n`
(`n ≥ 1`) and whose `data` is a list, `fetch_timeseries` issues exactly `n`
requests with page numbers `1, 2, ..., n` in strictly increasing order (the
request log is `[(1, url 1), ..., (n, url n)]`) and returns the concatenation
of the pages' `data` arrays in page order; and when `pagination` is absent
from the response, exactly one request is issued and that page's `data` is
returned (`lastPage` defaults to 1). -/
theorem pagination_loop (env : String → Option String)
    (transport : String → String → TransportOutcome)
    (dataset_ids : List String) (start_time end_time api_key : String) (fuel : Nat)
    (hkey : get_api_key env = some api_key) (hne : api_key ≠ "") :
    (∀ (n : Nat) (d : Nat → List PyVal), 1 ≤ n → n ≤ fuel →
      (∀ q, 1 ≤ q → q ≤ n → GoodPage transport dataset_ids start_time end_time api_key
        q n (d q)) →
      fetch_timeseries env transport dataset_ids start_time end_time fuel =
        ⟨(List.range' 1 n).map (fun q => (q, build_url dataset_ids start_time end_time q)),
         .ok (((List.range' 1 n).map d).flatten)⟩) ∧
    (∀ (kvs : List (String × PyVal)) (d : List PyVal), 1 ≤ fuel →
      transport (build_url dataset_ids start_time end_time 1) api_key =
        .ok 200 (some (.vdict kvs)) →
      dget kvs "data" = some (.vlist d) →
      dget kvs "pagination" = Option.none →
      fetch_timeseries env transport dataset_ids start_time end_time fuel =
        ⟨[(1, build_url dataset_ids start_time end_time 1)], .ok d⟩) := by
  have hfetch : fetch_timeseries env transport dataset_ids start_time end_time fuel =
      fetchPages transport dataset_ids start_time end_time api_key fuel 1 [] [] := by
    unfold fetch_timeseries
    rw [hkey]
    simp [hne]
  constructor
  · intro n d hn hfuel hgood
    rw [hfetch]
    exact fetchPages_good_run fuel hgood hn hfuel
  · intro kvs d hfuel ht hdata hpag
    rw [hfetch]
    obtain ⟨f, rfl⟩ : ∃ f, fuel = f + 1 := ⟨fuel - 1, by omega⟩
    have hstep : fetchStep (transport (build_url dataset_ids start_time end_time 1) api_key) =
        .ok (kvs, d) := by
      rw [ht]
      simp [fetchStep, hdata]
    rw [fetchPages]
    simp only [hstep, hpag]
    simp [pyTruthy, dget_nil, pyGeInt_vint]

/-- Witness for C1: a three-page simulated API (`lastPage = 3`, page `p`
carrying the single record `p`) and a single-page response without
`pagination`. -/
theorem pagination_loop_witness :
    (fetch_timeseries (fun v => if v = "FINGRID_API_KEY" then some "KEY" else Option.none)
      (fun url _ =>
        if url = build_url ["193"] "S" "E" 1 then
          .ok 200 (some (.vdict [("data", .vlist [.vint 1]),
            ("pagination", .vdict [("lastPage", .vint 3)])]))
        else if url = build_url ["193"] "S" "E" 2 then
          .ok 200 (some (.vdict [("data", .vlist [.vint 2]),
            ("pagination", .vdict [("lastPage", .vint 3)])]))
        else if url = build_url ["193"] "S" "E" 3 then
          .ok 200 (some (.vdict [("data", .vlist [.vint 3]),
            ("pagination", .vdict [("lastPage", .vint 3)])]))
        else .ok 500 Option.none)
      ["193"] "S" "E" 5 =
      ⟨[(1, build_url ["193"] "S" "E" 1), (2, build_url ["193"] "S" "E" 2),
        (3, build_url ["193"] "S" "E" 3)],
       .ok [.vint 1, .vint 2, .vint 3]⟩) ∧
    (fetch_timeseries (fun v => if v = "FINGRID_API_KEY" then some "KEY" else Option.none)
      (fun _ _ => .ok 200 (some (.vdict [("data", .vlist [.vint 9])])))
      ["193"] "S" "E" 5 =
      ⟨[(1, build_url ["193"] "S" "E" 1)], .ok [.vint 9]⟩) := by
  have h := pagination_loop (fun v => if v = "FINGRID_API_KEY" then some "KEY" else Option.none)
    (fun url _ =>
      if url = build_url ["193"] "S" "E" 1 then
        .ok 200 (some (.vdict [("data", .vlist [.vint 1]),
          ("pagination", .vdict [("lastPage", .vint 3)])]))
      else if url = build_url ["193"] "S" "E" 2 then
        .ok 200 (some (.vdict [("data", .vlist [.vint 2]),
          ("pagination", .vdict [("lastPage", .vint 3)])]))
      else if url = build_url ["193"] "S" "E" 3 then
        .ok 200 (some (.vdict [("data", .vlist [.vint 3]),
          ("pagination", .vdict [("lastPage", .vint 3)])]))
      else .ok 500 Option.none)
    ["193"] "S" "E" "KEY" 5 rfl (by decide)
  have h2 := pagination_loop (fun v => if v = "FINGRID_API_KEY" then some "KEY" else Option.none)
    (fun _ _ => .ok 200 (some (.vdict [("data", .vlist [.vint 9])])))
    ["193"] "S" "E" "KEY" 5 rfl (by decide)
  constructor
  · have h3 := h.1 3 (fun p => [.vint p]) (by decide) (by decide) (by
      intro q hq1 hq2
      interval_cases q
      · exact ⟨[("data", .vlist [.vint 1]), ("pagination", .vdict [("lastPage", .vint 3)])],
          [("lastPage", .vint 3)], rfl, rfl, rfl, rfl⟩
      · exact ⟨[("data", .vlist [.vint 2]), ("pagination", .vdict [("lastPage", .vint 3)])],
          [("lastPage", .vint 3)], rfl, rfl, rfl, rfl⟩
      · exact ⟨[("data", .vlist [.vint 3]), ("pagination", .vdict [("lastPage", .vint 3)])],
          [("lastPage", .vint 3)], rfl, rfl, rfl, rfl⟩)
    simpa using h3
  · have h4 := h2.2 [("data", .vlist [.vint 9])] [.vint 9] (by decide) rfl rfl rfl
    simpa using h4

/-- C4: If the page-`k` request yields HTTP status 429 (whether urllib
reports it as an `HTTPError` or as a response status), after `k - 1`
successful pages, `fetch_timeseries` fails with `RateLimitError`
immediately: the request log is exactly `[1, ..., k]` (no retry of page `k`,
no further pages), and the outcome is the error — no list of records is
returned, so the records accumulated from pages `1..k-1` are discarded.
The same shape of abort (`fetchPages_error_step`) applies to every
classified failure. -/
theorem rate_limit_short_circuit (env : String → Option String)
    (transport : String → String → TransportOutcome)
    (dataset_ids : List String) (start_time end_time api_key : String) (fuel : Nat)
    (k n : Nat) (d : Nat → List PyVal)
    (hkey : get_api_key env = some api_key) (hne : api_key ≠ "")
    (hk1 : 1 ≤ k) (hkn : k ≤ n) (hfuel : k ≤ fuel)
    (hgood : ∀ q, 1 ≤ q → q < k → GoodPage transport dataset_ids start_time end_time api_key
      q n (d q))
    (h429 : (∃ m, transport (build_url dataset_ids start_time end_time k) api_key =
        .httpError 429 m) ∨
      (∃ body, transport (build_url dataset_ids start_time end_time k) api_key =
        .ok 429 body)) :
    fetch_timeseries env transport dataset_ids start_time end_time fuel =
      ⟨(List.range' 1 k).map (fun q => (q, build_url dataset_ids start_time end_time q)),
       .error .rateLimitError⟩ ∧
    (∀ l, (fetch_timeseries env transport dataset_ids start_time end_time fuel).outcome ≠
      .ok l) := by
  have hstep : fetchStep (transport (build_url dataset_ids start_time end_time k) api_key) =
      .error .rateLimitError := by
    rcases h429 with ⟨m, hm⟩ | ⟨body, hb⟩
    · rw [hm]; simp [fetchStep]
    · rw [hb]; simp [fetchStep]
  have hmain : fetch_timeseries env transport dataset_ids start_time end_time fuel =
      ⟨(List.range' 1 k).map (fun q => (q, build_url dataset_ids start_time end_time q)),
       .error .rateLimitError⟩ := by
    unfold fetch_timeseries
    rw [hkey]
    simp only [hne, if_false, reduceIte]
    obtain ⟨f, rfl⟩ : ∃ f, fuel = (f + 1) + (k - 1) := ⟨fuel - k, by omega⟩
    rw [fetchPages_good_advance (k - 1) 1 [] [] (f + 1)
      (fun q hq1 hq2 => hgood q hq1 (by omega)) (by omega)]
    have hk' : 1 + (k - 1) = k := by omega
    rw [hk']
    rw [fetchPages_error_step hstep f _ _]
    have hsplit : List.range' 1 k = List.range' 1 (k - 1) ++ [1 + (k - 1)] := by
      have : k = (k - 1) + 1 := by omega
      rw [this]
      simpa using @List.range'_concat 1 1 (k - 1)
    congr 1
    rw [hsplit]
    simp [hk']
  exact ⟨hmain, by rw [hmain]; simp⟩

/-- Witness for C4: a simulated 429 on page 2 after a good page 1
announcing `lastPage = 3`. -/
theorem rate_limit_short_circuit_witness :
    fetch_timeseries (fun v => if v = "FINGRID_API_KEY" then some "KEY" else Option.none)
      (fun url _ =>
        if url = build_url ["193"] "S" "E" 1 then
          .ok 200 (some (.vdict [("data", .vlist [.vint 1]),
            ("pagination", .vdict [("lastPage", .vint 3)])]))
        else .httpError 429 "Too Many Requests")
      ["193"] "S" "E" 5 =
      ⟨[(1, build_url ["193"] "S" "E" 1), (2, build_url ["193"] "S" "E" 2)],
       .error .rateLimitError⟩ := by
  have h := rate_limit_short_circuit
    (fun v => if v = "FINGRID_API_KEY" then some "KEY" else Option.none)
    (fun url _ =>
      if url = build_url ["193"] "S" "E" 1 then
        .ok 200 (some (.vdict [("data", .vlist [.vint 1]),
          ("pagination", .vdict [("lastPage", .vint 3)])]))
      else .httpError 429 "Too Many Requests")
    ["193"] "S" "E" "KEY" 5 2 3 (fun _ => [.vint 1]) rfl (by decide)
    (by decide) (by decide) (by decide)
    (by
      intro q hq1 hq2
      interval_cases q
      exact ⟨[("data", .vlist [.vint 1]), ("pagination", .vdict [("lastPage", .vint 3)])],
        [("lastPage", .vint 3)], rfl, rfl, rfl, rfl⟩)
    (Or.inl ⟨"Too Many Requests", by
      have : build_url ["193"] "S" "E" 2 ≠ build_url ["193"] "S" "E" 1 := by decide
      simp [this]⟩)
  simpa using h.1

/-! ## Error classification (C6) -/

/-- The JSON body shapes `fetch_timeseries` rejects after a 200 response:
not an object, `data` field absent (or `None`), or `data` not a list. -/
def badBodyB (v : PyVal) : Bool :=
  match v with
  | .vdict kvs =>
    match (dget kvs "data").getD .none with
    | .none => true
    | .vlist _ => false
    | _ => true
  | _ => true

lemma fetchStep_ok200_dict (kvs : List (String × PyVal)) :
    fetchStep (.ok 200 (some (.vdict kvs))) =
      (match (dget kvs "data").getD .none with
       | .none => .error (.apiResponseError "API response missing \x27data\x27 field." Option.none)
       | .vlist data => .ok (kvs, data)
       | _ => .error (.apiResponseError "API \x27data\x27 field is not a list." Option.none)) := rfl

/-- C6: `fetch_timeseries` classifies an exchange as `APIResponseError` (the
spec's `ResponseInvalid`) exactly when the HTTP status is neither 200 nor 429,
or the body is not parseable as JSON (`body = none`), or the parsed body is
not an object, lacks a `data` field, or its `data` field is not a list; a
non-200/429 status puts that numeric status in the error's `status_code`; and
any classified failure aborts the loop immediately with that error as the
whole result. -/
theorem response_invalid_classification :
    (∀ t : TransportOutcome,
      (∃ m c, fetchStep t = .error (.apiResponseError m c)) ↔
        ((∃ s b, t = .ok s b ∧ s ≠ 200 ∧ s ≠ 429) ∨
         (∃ c m, t = .httpError c m ∧ c ≠ 429) ∨
         t = .ok 200 Option.none ∨
         (∃ v, t = .ok 200 (some v) ∧ badBodyB v = true))) ∧
    (∀ (s : Nat) (b : Option PyVal), s ≠ 200 → s ≠ 429 →
      ∃ m, fetchStep (.ok s b) = .error (.apiResponseError m (some s))) ∧
    (∀ (c : Nat) (m : String), c ≠ 429 →
      ∃ m2, fetchStep (.httpError c m) = .error (.apiResponseError m2 (some c))) ∧
    (∀ (transport : String → String → TransportOutcome) (dataset_ids : List String)
      (start_time end_time api_key : String) (fuel page : Nat) (acc : List PyVal)
      (log : List (Nat × String)) (err : FetchError),
      fetchStep (transport (build_url dataset_ids start_time end_time page) api_key) =
        .error err →
      fetchPages transport dataset_ids start_time end_time api_key (fuel + 1) page acc log =
        ⟨((page, build_url dataset_ids start_time end_time page) :: log).reverse,
         .error err⟩) := by
  refine ⟨?_, ?_, ?_, ?_⟩
  · intro t
    constructor
    · rintro ⟨m, c, h⟩
      cases t with
      | ok s b =>
        by_cases h429 : s = 429
        · subst h429
          simp [fetchStep] at h
        · by_cases h200 : s = 200
          · subst h200
            rcases b with _ | v
            · exact Or.inr (Or.inr (Or.inl rfl))
            · refine Or.inr (Or.inr (Or.inr ⟨v, rfl, ?_⟩))
              by_contra hbb
              rw [Bool.not_eq_true] at hbb
              cases v with
              | vdict kvs =>
                rcases hd : (dget kvs "data").getD .none with _ | b2 | n2 | f2 | s2 | xs | kvs2
                · exact absurd hbb (by simp [badBodyB, hd])
                · exact absurd hbb (by simp [badBodyB, hd])
                · exact absurd hbb (by simp [badBodyB, hd])
                · exact absurd hbb (by simp [badBodyB, hd])
                · exact absurd hbb (by simp [badBodyB, hd])
                · rw [fetchStep_ok200_dict] at h
                  rw [hd] at h
                  simp at h
                · exact absurd hbb (by simp [badBodyB, hd])
              | none => exact absurd hbb (by simp [badBodyB])
              | vbool b2 => exact absurd hbb (by simp [badBodyB])
              | vint n2 => exact absurd hbb (by simp [badBodyB])
              | vfloat f2 => exact absurd hbb (by simp [badBodyB])
              | vstr s2 => exact absurd hbb (by simp [badBodyB])
              | vlist xs => exact absurd hbb (by simp [badBodyB])
          · exact Or.inl ⟨s, b, rfl, h200, h429⟩
      | httpError c2 m2 =>
        by_cases hc : c2 = 429
        · subst hc
          simp [fetchStep] at h
        · exact Or.inr (Or.inl ⟨c2, m2, rfl, hc⟩)
      | urlError r => simp [fetchStep] at h
      | timedOut => simp [fetchStep] at h
      | osError m2 => simp [fetchStep] at h
    · rintro (⟨s, b, rfl, h200, h429⟩ | ⟨c, m2, rfl, hc⟩ | rfl | ⟨v, rfl, hbb⟩)
      · refine ⟨s!"API returned status {s}", some s, ?_⟩
        simp only [fetchStep]
        rw [if_neg h429, if_pos h200]
      · refine ⟨s!"API error: {c} - " ++ m2, some c, ?_⟩
        simp only [fetchStep]
        rw [if_neg hc]
      · exact ⟨"Invalid API response (not JSON)", Option.none, rfl⟩
      · cases v with
        | vdict kvs =>
          rcases hd : (dget kvs "data").getD .none with _ | b2 | n2 | f2 | s2 | xs | kvs2
          · exact ⟨_, _, by rw [fetchStep_ok200_dict, hd]⟩
          · exact ⟨_, _, by rw [fetchStep_ok200_dict, hd]⟩
          · exact ⟨_, _, by rw [fetchStep_ok200_dict, hd]⟩
          · exact ⟨_, _, by rw [fetchStep_ok200_dict, hd]⟩
          · exact ⟨_, _, by rw [fetchStep_ok200_dict, hd]⟩
          · exact absurd hbb (by simp [badBodyB, hd])
          · exact ⟨_, _, by rw [fetchStep_ok200_dict, hd]⟩
        | none => exact ⟨_, _, rfl⟩
        | vbool b2 => exact ⟨_, _, rfl⟩
        | vint n2 => exact ⟨_, _, rfl⟩
        | vfloat f2 => exact ⟨_, _, rfl⟩
        | vstr s2 => exact ⟨_, _, rfl⟩
        | vlist xs => exact ⟨_, _, rfl⟩
  · intro s b h200 h429
    refine ⟨s!"API returned status {s}", ?_⟩
    simp only [fetchStep]
    rw [if_neg h429, if_pos h200]
  · intro c m hc
    refine ⟨s!"API error: {c} - " ++ m, ?_⟩
    simp only [fetchStep]
    rw [if_neg hc]
  · intro transport dataset_ids start_time end_time api_key fuel page acc log err h
    exact fetchPages_error_step h fuel acc log

/-- Witness for C6: a 503 response is classified as `APIResponseError`
carrying status 503. -/
theorem response_invalid_classification_witness :
    ∃ m, fetchStep (.ok 503 Option.none) = .error (.apiResponseError m (some 503)) :=
  response_invalid_classification.2.1 503 Option.none (by decide) (by decide)

/-! ## Per-record emission (C2) -/

/-- The record's `startTime` survives the loop's checks: present (not
`None`), and — when it is a string — accepted by the time parsing.  A
non-string, non-`None` start time is taken verbatim (`dt_start = st`). -/
def startOkB : PyVal → Bool
  | .none => false
  | .vstr s => (parseTimeString s).isSome
  | _ => true

/-- The record's `endTime` does not abort the record: only a truthy string
is parsed (`if et and isinstance(et, str)`), and then must parse. -/
def endOkB : PyVal → Bool
  | .vstr s => if s ≠ "" then (parseTimeString s).isSome else true
  | _ => true

/-- The emission condition of the record loop, by field. -/
def emitB (kvs : List (String × PyVal)) : Bool :=
  startOkB ((dget kvs "startTime").getD .none) &&
  endOkB ((dget kvs "endTime").getD .none) &&
  (pyFloat ((dget kvs "value").getD .none)).isSome

lemma pyIsNone_iff (v : PyVal) : pyIsNone v = true ↔ v = .none := by
  cases v <;> simp [pyIsNone]

lemma parseEndVal_isSome (d : TimeVal) (et : PyVal) :
    (parseEndVal d et).isSome = endOkB et := by
  cases et with
  | vstr s =>
    by_cases hse : s = ""
    · simp [parseEndVal, endOkB, hse]
    · simp [parseEndVal, endOkB, hse]
  | none => rfl
  | vbool b => rfl
  | vint n => rfl
  | vfloat f => rfl
  | vlist xs => rfl
  | vdict kvs => rfl

lemma normalizeRecord_isSome (kvs : List (String × PyVal)) (dataset_id : String) :
    (normalizeRecord kvs dataset_id).isSome = emitB kvs := by
  unfold normalizeRecord emitB
  generalize (dget kvs "startTime").getD .none = st
  generalize (dget kvs "endTime").getD .none = et
  generalize (dget kvs "value").getD .none = v
  by_cases hsn : pyIsNone st = true
  · rw [pyIsNone_iff] at hsn
    subst hsn
    simp [pyIsNone, startOkB]
  · by_cases hvn : pyIsNone v = true
    · rw [pyIsNone_iff] at hvn
      subst hvn
      simp [pyIsNone, pyFloat, hsn]
    · simp only [hsn, hvn, Bool.or_self, Bool.false_eq_true, if_false, reduceIte]
      rcases hps : parseStartVal st with _ | d
      · have hs : startOkB st = false := by
          cases st with
          | vstr s =>
            rcases hmap : parseTimeString s with _ | a
            · simp [startOkB, hmap]
            · rw [parseStartVal, hmap] at hps
              simp at hps
          | none => simp [pyIsNone] at hsn
          | vbool b => simp [parseStartVal] at hps
          | vint n => simp [parseStartVal] at hps
          | vfloat f => simp [parseStartVal] at hps
          | vlist xs => simp [parseStartVal] at hps
          | vdict dk => simp [parseStartVal] at hps
        simp [hps, hs]
      · have hs : startOkB st = true := by
          cases st with
          | vstr s =>
            rcases hmap : parseTimeString s with _ | a
            · rw [parseStartVal, hmap] at hps
              simp at hps
            · simp [startOkB, hmap]
          | none => simp [pyIsNone] at hsn
          | vbool b => rfl
          | vint n => rfl
          | vfloat f => rfl
          | vlist xs => rfl
          | vdict dk => rfl
        simp only [hps]
        rcases hpe : parseEndVal d et with _ | de
        · have he : endOkB et = false := by
            have h2 := parseEndVal_isSome d et
            rw [hpe] at h2
            exact h2.symm
          simp [hpe, hs, he]
        · have he : endOkB et = true := by
            have h2 := parseEndVal_isSome d et
            rw [hpe] at h2
            exact h2.symm
          simp only [hpe]
          rcases hvf : pyFloat v with _ | fv <;> simp [hvf, hs, he]

lemma normalizeRecord_some (kvs : List (String × PyVal)) (dataset_id : String) (r : Row)
    (h : normalizeRecord kvs dataset_id = some r) :
    r.dataset_id = rowDatasetId kvs dataset_id ∧
    (pyIsNone ((dget kvs "endTime").getD .none) = true → r.end_time = r.start_time) := by
  unfold normalizeRecord at h
  by_cases hb : (pyIsNone ((dget kvs "startTime").getD .none) ||
      pyIsNone ((dget kvs "value").getD .none)) = true
  · rw [if_pos hb] at h
    exact absurd h (by simp)
  · rw [if_neg hb] at h
    rcases hps : parseStartVal ((dget kvs "startTime").getD .none) with _ | d
    · simp only [hps] at h
      exact Option.noConfusion h
    · simp only [hps] at h
      rcases hpe : parseEndVal d ((dget kvs "endTime").getD .none) with _ | de
      · simp only [hpe] at h
        exact Option.noConfusion h
      · simp only [hpe] at h
        rcases hvf : pyFloat ((dget kvs "value").getD .none) with _ | fv
        · simp only [hvf] at h
          exact Option.noConfusion h
        · simp only [hvf, Option.some.injEq] at h
          have hr : r = ⟨d, de, fv, rowDatasetId kvs dataset_id⟩ := h.symm
          subst hr
          refine ⟨rfl, ?_⟩
          intro hab
          rw [pyIsNone_iff] at hab
          rw [hab] at hpe
          have : de = d := by
            simp [parseEndVal] at hpe
            exact hpe.symm
          simp [this]

/-- C2 (amended): a Row is emitted for a dict record if and only if the
start time is present and — when a string — parseable, any present truthy
string end time is parseable, and the value is present and float-coercible
(the original claim omitted the two parseability conditions); when the end
time is absent (or `None`) the Row's end_time equals its start_time; and the
Row's dataset_id is `str` of the record's `datasetId` when that key is
present, otherwise the originally requested DatasetID. -/
theorem record_emission (kvs : List (String × PyVal)) (dataset_id : String) :
    ((normalizeRecord kvs dataset_id).isSome = true ↔
      (startOkB ((dget kvs "startTime").getD .none) = true ∧
       endOkB ((dget kvs "endTime").getD .none) = true ∧
       (pyFloat ((dget kvs "value").getD .none)).isSome = true)) ∧
    (∀ r, normalizeRecord kvs dataset_id = some r →
      r.dataset_id = rowDatasetId kvs dataset_id ∧
      (pyIsNone ((dget kvs "endTime").getD .none) = true → r.end_time = r.start_time)) := by
  constructor
  · rw [normalizeRecord_isSome]
    unfold emitB
    simp [Bool.and_eq_true, and_assoc]
  · intro r h
    exact normalizeRecord_some kvs dataset_id r h

/-- C2 counterexample: the record `{"startTime": "garbage", "value": 1}` has
a present start time and a present, float-coercible value, yet no Row is
emitted (the start time fails to parse), refuting the claimed
"if and only if". -/
theorem record_emission_counterexample :
    pyIsNone ((dget [("startTime", .vstr "garbage"), ("value", .vint 1)] "startTime").getD .none)
      = false ∧
    (pyFloat ((dget [("startTime", .vstr "garbage"), ("value", .vint 1)] "value").getD .none)).isSome
      = true ∧
    normalizeRecord [("startTime", .vstr "garbage"), ("value", .vint 1)] "193" = Option.none :=
  ⟨rfl, rfl, by rfl⟩

/-- Witness for C2 at a concrete record with an absent end time. -/
theorem record_emission_witness :
    (normalizeRecord [("startTime", .vstr "2024-01-01T00:00"), ("value", .vint 5)] "7").isSome
      = true ∧
    (⟨.dt ⟨2024, 1, 1, 0, 0, 0, 0, Option.none⟩, .dt ⟨2024, 1, 1, 0, 0, 0, 0, Option.none⟩,
        .finite 5, "7"⟩ : Row).dataset_id = rowDatasetId
      [("startTime", .vstr "2024-01-01T00:00"), ("value", .vint 5)] "7" ∧
    (⟨.dt ⟨2024, 1, 1, 0, 0, 0, 0, Option.none⟩, .dt ⟨2024, 1, 1, 0, 0, 0, 0, Option.none⟩,
        .finite 5, "7"⟩ : Row).end_time =
      (⟨.dt ⟨2024, 1, 1, 0, 0, 0, 0, Option.none⟩, .dt ⟨2024, 1, 1, 0, 0, 0, 0, Option.none⟩,
        .finite 5, "7"⟩ : Row).start_time :=
  ⟨(record_emission [("startTime", .vstr "2024-01-01T00:00"), ("value", .vint 5)] "7").1.mpr
      ⟨by rfl, by rfl, by rfl⟩,
   ((record_emission [("startTime", .vstr "2024-01-01T00:00"), ("value", .vint 5)] "7").2
      _ (by rfl)).1,
   ((record_emission [("startTime", .vstr "2024-01-01T00:00"), ("value", .vint 5)] "7").2
      _ (by rfl)).2 (by rfl)⟩

/-! ## Sorting with naive-datetime keys (C3, C7, C8)

The Row data model makes `start_time` a timestamp; whenever the API's
`startTime` strings parse without an explicit non-UTC offset (the `Z` and
`+00:00` forms both normalize away), every surviving key is a naive
`datetime` and the sort's comparisons are the total lexicographic order on
the seven datetime fields.  The sorting theorems below are proved under that
key discipline. -/

/-- The row's sort key is a naive `datetime`. -/
def rowKeyNaive (r : Row) : Bool :=
  match r.start_time with
  | .dt d => d.tzOffsetMicros.isNone
  | .py _ => false

/-- The comparison fields of a (naive) row key. -/
def rowKeyFields (r : Row) : List Nat :=
  match r.start_time with
  | .dt d => dtFields d
  | .py _ => []

/-- The pure comparison `rows.sort` uses on naive keys. -/
def rowLtB (x y : Row) : Bool := lexLtNat (rowKeyFields x) (rowKeyFields y)

/-- Pure stable insertion mirroring `insertRow` on naive keys. -/
def insB (x : Row) : List Row → List Row
  | [] => [x]
  | y :: ys => if rowLtB x y then x :: y :: ys else y :: insB x ys

/-- Pure insertion sort mirroring `sortRowsAux` on naive keys. -/
def isortAux : List Row → List Row → List Row
  | acc, [] => acc
  | acc, x :: xs => isortAux (insB x acc) xs

def isortB (l : List Row) : List Row := isortAux [] l

lemma lexLtNat_irrefl (a : List Nat) : lexLtNat a a = false := by
  induction a with
  | nil => rfl
  | cons x xs ih => simp [lexLtNat, ih]

lemma lexLtNat_asymm {a b : List Nat} (h : lexLtNat a b = true) :
    lexLtNat b a = false := by
  induction a generalizing b with
  | nil =>
    cases b with
    | nil => simp [lexLtNat] at h
    | cons y ys => simp [lexLtNat]
  | cons x xs ih =>
    cases b with
    | nil => simp [lexLtNat] at h
    | cons y ys =>
      simp only [lexLtNat] at h ⊢
      by_cases hxy : x < y
      · simp [hxy, Nat.lt_asymm hxy]
      · simp only [hxy, if_false, reduceIte] at h
        by_cases hyx : y < x
        · simp [hyx] at h
        · simp only [hyx, if_false, reduceIte] at h ⊢
          simp [hxy, ih h]

lemma lexLtNat_total {a b : List Nat} (h : lexLtNat a b = false) :
    lexLtNat b a = true ∨ a = b := by
  induction a generalizing b with
  | nil =>
    cases b with
    | nil => exact Or.inr rfl
    | cons y ys => simp [lexLtNat] at h
  | cons x xs ih =>
    cases b with
    | nil => exact Or.inl rfl
    | cons y ys =>
      simp only [lexLtNat] at h ⊢
      by_cases hxy : x < y
      · simp [hxy] at h
      · simp only [hxy, if_false, reduceIte] at h
        by_cases hyx : y < x
        · simp [hyx]
        · simp only [hyx, if_false, reduceIte] at h ⊢
          have hx : x = y := by omega
          subst hx
          simp only [lt_self_iff_false, if_false, reduceIte]
          rcases ih h with h2 | h2
          · exact Or.inl h2
          · exact Or.inr (by rw [h2])

lemma lexLtNat_trans {a b c : List Nat} (h1 : lexLtNat a b = true)
    (h2 : lexLtNat b c = true) : lexLtNat a c = true := by
  induction a generalizing b c with
  | nil =>
    cases c with
    | nil =>
      cases b with
      | nil => simp [lexLtNat] at h1
      | cons y ys => simp [lexLtNat] at h2
    | cons z zs => simp [lexLtNat]
  | cons x xs ih =>
    cases b with
    | nil => simp [lexLtNat] at h1
    | cons y ys =>
      cases c with
      | nil => simp [lexLtNat] at h2
      | cons z zs =>
        simp only [lexLtNat] at h1 h2 ⊢
        by_cases hxy : x < y <;> by_cases hyz : y < z
        · have : x < z := Nat.lt_trans hxy hyz
          simp [this]
        · simp only [hxy, if_true, reduceIte] at h1
          simp only [hyz, if_false, reduceIte] at h2
          by_cases hzy : z < y
          · simp [hzy] at h2
          · have : x < z := by omega
            simp [this]
        · simp only [hxy, if_false, reduceIte] at h1
          by_cases hyx : y < x
          · simp [hyx] at h1
          · have hx : x = y := by omega
            subst hx
            simp [hyz]
        · simp only [hxy, if_false, reduceIte] at h1
          simp only [hyz, if_false, reduceIte] at h2
          by_cases hyx : y < x
          · simp [hyx] at h1
          · by_cases hzy : z < y
            · simp [hzy] at h2
            · have hx : x = y := by omega
              have hy : y = z := by omega
              subst hx
              subst hy
              simp only [lt_self_iff_false, if_false, reduceIte] at h1 h2 ⊢
              exact ih h1 h2

lemma rowLtB_asymm {x y : Row} (h : rowLtB x y = true) : rowLtB y x = false :=
  lexLtNat_asymm h

/-- `¬(z < y)` and `x < y` give `x < z` (key order is total). -/
lemma rowLtB_lt_of_lt_of_not_lt {x y z : Row} (h1 : rowLtB x y = true)
    (h2 : rowLtB z y = false) : rowLtB x z = true := by
  rcases lexLtNat_total h2 with h3 | h3
  · exact lexLtNat_trans h1 h3
  · unfold rowLtB at h1 ⊢
    rw [h3]
    exact h1

lemma tvLt_naive {x y : Row} (hx : rowKeyNaive x = true) (hy : rowKeyNaive y = true) :
    tvLt x.start_time y.start_time = .ok (rowLtB x y) := by
  unfold rowKeyNaive at hx hy
  unfold rowLtB rowKeyFields
  rcases hsx : x.start_time with dx | vx
  · rcases hsy : y.start_time with dy | vy
    · rw [hsx] at hx
      rw [hsy] at hy
      simp only [Option.isNone_iff_eq_none] at hx hy
      simp [tvLt, dtLtB, hx, hy]
    · rw [hsy] at hy
      simp [rowKeyNaive] at hy
  · rw [hsx] at hx
    simp [rowKeyNaive] at hx

lemma mem_insB {z x : Row} {s : List Row} :
    z ∈ insB x s ↔ z = x ∨ z ∈ s := by
  induction s with
  | nil => simp [insB]
  | cons y ys ih =>
    unfold insB
    by_cases h : rowLtB x y = true
    · rw [if_pos h]
      simp
    · rw [if_neg h]
      simp only [List.mem_cons, ih]
      tauto

lemma insertRow_naive {x : Row} {s : List Row} (hx : rowKeyNaive x = true)
    (hs : ∀ r ∈ s, rowKeyNaive r = true) :
    insertRow x s = .ok (insB x s) := by
  induction s with
  | nil => rfl
  | cons y ys ih =>
    have hy : rowKeyNaive y = true := hs y (by simp)
    unfold insertRow insB
    rw [tvLt_naive hx hy]
    by_cases h : rowLtB x y = true
    · rw [if_pos h, h]
    · rw [if_neg h, Bool.not_eq_true] at *
      rw [h, ih (fun r hr => hs r (by simp [hr]))]

/-- The sortedness invariant: no adjacent descent under the code's key
comparison. -/
def SortedRowsB (l : List Row) : Prop :=
  List.Chain' (fun u v => rowLtB v u = false) l

lemma insB_head? (x : Row) (s : List Row) :
    (insB x s).head? = some x ∨ (insB x s).head? = s.head? := by
  cases s with
  | nil => exact Or.inl rfl
  | cons y ys =>
    unfold insB
    by_cases h : rowLtB x y = true
    · rw [if_pos h]
      exact Or.inl rfl
    · rw [if_neg h]
      exact Or.inr rfl

lemma sortedRowsB_insB {x : Row} {s : List Row} (hs : SortedRowsB s) :
    SortedRowsB (insB x s) := by
  induction s with
  | nil => simp [insB, SortedRowsB]
  | cons y ys ih =>
    unfold insB
    by_cases h : rowLtB x y = true
    · rw [if_pos h]
      exact List.Chain'.cons (rowLtB_asymm h) hs
    · rw [if_neg h]
      have hys : SortedRowsB ys := (List.chain'_cons'.mp hs).2
      apply List.chain'_cons'.mpr
      refine ⟨?_, ih hys⟩
      intro z hz
      rcases insB_head? x ys with hh | hh
      · rw [hh] at hz
        have hzx : x = z := by simpa using hz
        subst hzx
        simpa using h
      · rw [hh] at hz
        exact (List.chain'_cons'.mp hs).1 z hz

lemma sortedRowsB_isortAux {acc : List Row} (l : List Row) (hacc : SortedRowsB acc) :
    SortedRowsB (isortAux acc l) := by
  induction l generalizing acc with
  | nil => exact hacc
  | cons x xs ih => exact ih (sortedRowsB_insB hacc)

lemma perm_insB (x : Row) (s : List Row) : (insB x s).Perm (x :: s) := by
  induction s with
  | nil => rfl
  | cons y ys ih =>
    unfold insB
    by_cases h : rowLtB x y = true
    · rw [if_pos h]
    · rw [if_neg h]
      exact (ih.cons y).trans (List.Perm.swap x y ys)

lemma perm_isortAux (l acc : List Row) : (isortAux acc l).Perm (acc ++ l) := by
  induction l generalizing acc with
  | nil => simp [isortAux]
  | cons x xs ih =>
    exact (ih (insB x acc)).trans
      (((perm_insB x acc).append_right xs).trans List.perm_middle.symm)

lemma sortRowsAux_naive {acc l : List Row} (hacc : ∀ r ∈ acc, rowKeyNaive r = true)
    (hl : ∀ r ∈ l, rowKeyNaive r = true) :
    sortRowsAux acc l = .ok (isortAux acc l) := by
  induction l generalizing acc with
  | nil => rfl
  | cons x xs ih =>
    unfold sortRowsAux isortAux
    rw [insertRow_naive (hl x (by simp)) hacc]
    exact ih
      (fun r hr => by
        rcases mem_insB.mp hr with h | h
        · rw [h]; exact hl x (by simp)
        · exact hacc r h)
      (fun r hr => hl r (by simp [hr]))

lemma sortRows_naive {l : List Row} (hl : ∀ r ∈ l, rowKeyNaive r = true) :
    sortRows l = .ok (isortB l) :=
  sortRowsAux_naive (by simp) hl

lemma rowLtB_all_of_sorted {x y : Row} {ys : List Row}
    (hs : SortedRowsB (y :: ys)) (hxy : rowLtB x y = true) :
    ∀ z ∈ y :: ys, rowLtB x z = true := by
  induction ys generalizing y with
  | nil =>
    intro z hz
    have : z = y := by simpa using hz
    subst this
    exact hxy
  | cons y2 ys2 ih =>
    intro z hz
    rcases List.mem_cons.mp hz with rfl | hz2
    · exact hxy
    · have hchain := List.chain'_cons.mp hs
      have hxy2 : rowLtB x y2 = true := rowLtB_lt_of_lt_of_not_lt hxy hchain.1
      exact ih hchain.2 hxy2 z hz2

lemma filterK_insB {x : Row} {s : List Row} (hs : SortedRowsB s) (t : List Nat) :
    (insB x s).filter (fun r => rowKeyFields r == t) =
      s.filter (fun r => rowKeyFields r == t) ++
        (if rowKeyFields x == t then [x] else []) := by
  induction s with
  | nil =>
    simp only [insB, List.filter_nil, List.nil_append]
    by_cases ht : (rowKeyFields x == t) = true <;> simp [List.filter, ht]
  | cons y ys ih =>
    unfold insB
    by_cases h : rowLtB x y = true
    · rw [if_pos h]
      by_cases ht : (rowKeyFields x == t) = true
      · have hall := rowLtB_all_of_sorted hs h
        have hnil : (y :: ys).filter (fun r => rowKeyFields r == t) = [] := by
          rw [List.filter_eq_nil_iff]
          intro a ha hc
          have h1 : rowKeyFields x = t := by simpa using ht
          have h2 : rowKeyFields a = t := by simpa using hc
          have hxa : rowLtB x a = true := hall a ha
          unfold rowLtB at hxa
          rw [h1, h2, lexLtNat_irrefl] at hxa
          exact Bool.noConfusion hxa
        simp [List.filter_cons, ht, hnil]
      · simp [List.filter_cons, ht]
    · rw [if_neg h]
      have hys : SortedRowsB ys := (List.chain'_cons'.mp hs).2
      by_cases hy : (rowKeyFields y == t) = true <;>
        simp [List.filter_cons, hy, ih hys]

lemma filterK_isortAux (l : List Row) (acc : List Row) (hacc : SortedRowsB acc)
    (t : List Nat) :
    (isortAux acc l).filter (fun r => rowKeyFields r == t) =
      acc.filter (fun r => rowKeyFields r == t) ++
        l.filter (fun r => rowKeyFields r == t) := by
  induction l generalizing acc with
  | nil => simp [isortAux]
  | cons x xs ih =>
    unfold isortAux
    rw [ih (insB x acc) (sortedRowsB_insB hacc), filterK_insB hacc t]
    by_cases hx : (rowKeyFields x == t) = true <;>
      simp [List.filter_cons, hx, List.append_assoc]

/-- C3: whenever the record loop succeeds and every surviving row's start
time is a naive parsed timestamp, the normalizer's final sort succeeds and
returns exactly the stable ascending reordering of the pre-sort rows: the
result is sorted ascending by start time (no adjacent descent under the
code's datetime comparison), it is a permutation of the surviving rows, and
rows with equal start times keep their pre-sort relative order (the filter
at every key is unchanged) — regardless of the order in which the API
returned pages or records. -/
theorem normalizer_sorted_stable (raw : List PyVal) (dsid : String) (pre : List Row)
    (hp : processItems raw dsid = .ok pre)
    (hn : ∀ r ∈ pre, rowKeyNaive r = true) :
    process_rows raw dsid = .ok (isortB pre) ∧
    SortedRowsB (isortB pre) ∧
    (isortB pre).Perm pre ∧
    (∀ t, (isortB pre).filter (fun r => rowKeyFields r == t) =
      pre.filter (fun r => rowKeyFields r == t)) := by
  refine ⟨?_, ?_, ?_, ?_⟩
  · unfold process_rows
    rw [hp]
    exact sortRows_naive hn
  · exact sortedRowsB_isortAux pre (by simp [SortedRowsB])
  · simpa using perm_isortAux pre []
  · intro t
    simpa using filterK_isortAux pre [] (by simp [SortedRowsB]) t

/-- Witness for C3: two records arriving in reverse chronological order. -/
theorem normalizer_sorted_stable_witness :
    (∀ r ∈ ([⟨.dt ⟨2024, 1, 2, 0, 0, 0, 0, Option.none⟩, .dt ⟨2024, 1, 2, 0, 0, 0, 0, Option.none⟩,
          .finite 2, "1"⟩,
        ⟨.dt ⟨2024, 1, 1, 0, 0, 0, 0, Option.none⟩, .dt ⟨2024, 1, 1, 0, 0, 0, 0, Option.none⟩,
          .finite 1, "1"⟩] : List Row), rowKeyNaive r = true) ∧
    process_rows [.vdict [("startTime", .vstr "2024-01-02T00:00"), ("value", .vint 2)],
        .vdict [("startTime", .vstr "2024-01-01T00:00"), ("value", .vint 1)]] "1" =
      .ok (isortB [⟨.dt ⟨2024, 1, 2, 0, 0, 0, 0, Option.none⟩,
          .dt ⟨2024, 1, 2, 0, 0, 0, 0, Option.none⟩, .finite 2, "1"⟩,
        ⟨.dt ⟨2024, 1, 1, 0, 0, 0, 0, Option.none⟩,
          .dt ⟨2024, 1, 1, 0, 0, 0, 0, Option.none⟩, .finite 1, "1"⟩]) ∧
    SortedRowsB (isortB [⟨.dt ⟨2024, 1, 2, 0, 0, 0, 0, Option.none⟩,
        .dt ⟨2024, 1, 2, 0, 0, 0, 0, Option.none⟩, .finite 2, "1"⟩,
      ⟨.dt ⟨2024, 1, 1, 0, 0, 0, 0, Option.none⟩,
        .dt ⟨2024, 1, 1, 0, 0, 0, 0, Option.none⟩, .finite 1, "1"⟩]) := by
  have h := normalizer_sorted_stable
    [.vdict [("startTime", .vstr "2024-01-02T00:00"), ("value", .vint 2)],
     .vdict [("startTime", .vstr "2024-01-01T00:00"), ("value", .vint 1)]] "1"
    [⟨.dt ⟨2024, 1, 2, 0, 0, 0, 0, Option.none⟩, .dt ⟨2024, 1, 2, 0, 0, 0, 0, Option.none⟩,
        .finite 2, "1"⟩,
     ⟨.dt ⟨2024, 1, 1, 0, 0, 0, 0, Option.none⟩, .dt ⟨2024, 1, 1, 0, 0, 0, 0, Option.none⟩,
        .finite 1, "1"⟩]
    (by rfl) (by decide)
  exact ⟨by decide, h.1, h.2.1⟩

/-! ## Totality on well-formed records (C7) -/

/-- The rows the record loop emits, in input order. -/
def pyRowsOf (raw : List PyVal) (dsid : String) : List Row :=
  raw.filterMap (fun item => match item with
    | .vdict kvs => normalizeRecord kvs dsid
    | _ => Option.none)

lemma processItems_ok_of_dicts {raw : List PyVal} {dsid : String}
    (hd : ∀ item ∈ raw, ∃ kvs, item = .vdict kvs) :
    processItems raw dsid = .ok (pyRowsOf raw dsid) := by
  induction raw with
  | nil => rfl
  | cons item rest ih =>
    obtain ⟨kvs, rfl⟩ := hd item (by simp)
    unfold processItems
    rw [ih (fun i hi => hd i (by simp [hi]))]
    unfold pyRowsOf
    rw [List.filterMap_cons]
    rcases hnr : normalizeRecord kvs dsid with _ | r <;> simp [hnr, pyRowsOf]

lemma processItems_ok_inv {raw : List PyVal} {dsid : String} {pre : List Row}
    (h : processItems raw dsid = .ok pre) :
    (∀ item ∈ raw, ∃ kvs, item = .vdict kvs) ∧ pre = pyRowsOf raw dsid := by
  induction raw generalizing pre with
  | nil =>
    refine ⟨by simp, ?_⟩
    unfold processItems at h
    injection h with h2
    exact h2.symm
  | cons item rest ih =>
    unfold processItems at h
    cases item with
    | vdict kvs =>
      rcases hrest : processItems rest dsid with e | rs
      · simp only [hrest] at h
        exact Except.noConfusion h
      · simp only [hrest] at h
        obtain ⟨hd1, hd2⟩ := ih hrest
        subst hd2
        refine ⟨?_, ?_⟩
        · intro i hi
          rcases List.mem_cons.mp hi with rfl | hi2
          · exact ⟨kvs, rfl⟩
          · exact hd1 i hi2
        · unfold pyRowsOf
          rw [List.filterMap_cons]
          rcases hnr : normalizeRecord kvs dsid with _ | r
          · simp only [hnr] at h ⊢
            injection h with h2
            rw [← h2]
            rfl
          · simp only [hnr] at h ⊢
            injection h with h2
            rw [← h2]
            rfl
    | none => exact Except.noConfusion h
    | vbool b => exact Except.noConfusion h
    | vint n => exact Except.noConfusion h
    | vfloat f => exact Except.noConfusion h
    | vstr s => exact Except.noConfusion h
    | vlist xs => exact Except.noConfusion h

/-- C7 (amended): on lists of dict records whose surviving start times are
naive parsed timestamps, normalization is total — no record, however
malformed in its fields, raises; malformed records are dropped and the
remaining rows are returned (the result is a permutation of the surviving
rows).  The original claim's full totality fails: see the counterexample. -/
theorem normalizer_total (raw : List PyVal) (dsid : String)
    (hd : ∀ item ∈ raw, ∃ kvs, item = .vdict kvs)
    (hn : ∀ r ∈ pyRowsOf raw dsid, rowKeyNaive r = true) :
    ∃ rows, process_rows raw dsid = .ok rows ∧ rows.Perm (pyRowsOf raw dsid) := by
  refine ⟨isortB (pyRowsOf raw dsid), ?_, by simpa using perm_isortAux (pyRowsOf raw dsid) []⟩
  unfold process_rows
  rw [processItems_ok_of_dicts hd]
  exact sortRows_naive hn

/-- C7 counterexample: two records whose non-string start times (an int and
a dict) are passed through verbatim make `rows.sort` compare an int with a
dict — an uncaught `TypeError`, so the whole operation fails instead of
dropping the malformed records. -/
theorem normalizer_total_counterexample :
    process_rows [.vdict [("startTime", .vint 1), ("value", .vint 1)],
      .vdict [("startTime", .vdict []), ("value", .vint 2)]] "193" =
      .error .typeError := rfl

/-- Witness for C7: the spec's malformed-record test — a record with an
uncoercible value is dropped, the good record survives. -/
theorem normalizer_total_witness :
    ∃ rows, process_rows [.vdict [("startTime", .vstr "2024-01-01T00:00Z"), ("value", .vstr "abc")],
        .vdict [("startTime", .vstr "2024-01-01T01:00Z"), ("value", .vfloat (.finite 5))]] "181" =
      .ok rows ∧
      rows.Perm (pyRowsOf [.vdict [("startTime", .vstr "2024-01-01T00:00Z"), ("value", .vstr "abc")],
        .vdict [("startTime", .vstr "2024-01-01T01:00Z"), ("value", .vfloat (.finite 5))]] "181") := by
  apply normalizer_total
  · intro i hi
    rcases List.mem_cons.mp hi with rfl | hi2
    · exact ⟨_, rfl⟩
    · rcases List.mem_cons.mp hi2 with rfl | hi3
      · exact ⟨_, rfl⟩
      · simp at hi3
  · decide

/-! ## Order invariance on distinct keys (C8) -/

lemma pairwise_lt_of_sorted_nodup {l : List Row} (hs : SortedRowsB l)
    (hd : (l.map rowKeyFields).Nodup) :
    List.Pairwise (fun u v => rowLtB u v = true) l := by
  induction l with
  | nil => exact List.Pairwise.nil
  | cons x xs ih =>
    have hs2 : SortedRowsB xs := (List.chain'_cons'.mp hs).2
    rw [List.map_cons] at hd
    have hd0 := List.nodup_cons.mp hd
    refine List.Pairwise.cons ?_ (ih hs2 hd0.2)
    cases xs with
    | nil => intro z hz; simp at hz
    | cons y ys =>
      have hadj : rowLtB y x = false := (List.chain'_cons.mp hs).1
      have hxy : rowLtB x y = true := by
        rcases lexLtNat_total hadj with h | h
        · exact h
        · exfalso
          apply hd0.1
          rw [List.map_cons]
          exact List.mem_cons.mpr (Or.inl h.symm)
      exact rowLtB_all_of_sorted hs2 hxy

lemma sorted_eq_of_perm {l1 l2 : List Row} (hp : l1.Perm l2)
    (h1 : SortedRowsB l1) (h2 : SortedRowsB l2)
    (hd : (l1.map rowKeyFields).Nodup) : l1 = l2 := by
  have hd2 : (l2.map rowKeyFields).Nodup := ((hp.map rowKeyFields).nodup_iff).mp hd
  have s1 : List.Pairwise (fun u v => rowLtB u v = true ∨ u = v) l1 :=
    (pairwise_lt_of_sorted_nodup h1 hd).imp Or.inl
  have s2 : List.Pairwise (fun u v => rowLtB u v = true ∨ u = v) l2 :=
    (pairwise_lt_of_sorted_nodup h2 hd2).imp Or.inl
  have hanti : ∀ a b : Row, (rowLtB a b = true ∨ a = b) → (rowLtB b a = true ∨ b = a) →
      a = b := by
    rintro a b (hab | hab) (hba | hba)
    · have := rowLtB_asymm hab
      rw [hba] at this
      exact Bool.noConfusion this
    · exact hba.symm
    · exact hab
    · exact hba.symm
  exact @List.eq_of_perm_of_sorted _ _ ⟨hanti⟩ _ _ hp s1 s2

/-- C8 (amended): when the surviving rows carry pairwise-distinct naive
timestamp keys, feeding the record loop any permutation of the raw records
yields the identical Row list — the output is then a pure function of the
input record set.  With duplicate start times the original claim fails (the
stable sort preserves input order; see the counterexample). -/
theorem normalizer_order_invariant (raw raw' : List PyVal) (dsid : String) (pre : List Row)
    (hperm : raw'.Perm raw)
    (hp : processItems raw dsid = .ok pre)
    (hn : ∀ r ∈ pre, rowKeyNaive r = true)
    (hd : (pre.map rowKeyFields).Nodup) :
    process_rows raw' dsid = process_rows raw dsid := by
  obtain ⟨hdict, rfl⟩ := processItems_ok_inv hp
  have hdict' : ∀ item ∈ raw', ∃ kvs, item = .vdict kvs :=
    fun i hi => hdict i (hperm.subset hi)
  have hper : (pyRowsOf raw' dsid).Perm (pyRowsOf raw dsid) := hperm.filterMap _
  have hn' : ∀ r ∈ pyRowsOf raw' dsid, rowKeyNaive r = true :=
    fun r hr => hn r (hper.subset hr)
  unfold process_rows
  rw [processItems_ok_of_dicts hdict, processItems_ok_of_dicts hdict']
  show sortRows (pyRowsOf raw' dsid) = sortRows (pyRowsOf raw dsid)
  rw [sortRows_naive hn, sortRows_naive hn']
  congr 1
  apply sorted_eq_of_perm
  · exact ((by simpa using perm_isortAux (pyRowsOf raw' dsid) [] :
      (isortB (pyRowsOf raw' dsid)).Perm (pyRowsOf raw' dsid)).trans hper).trans
      (by simpa using perm_isortAux (pyRowsOf raw dsid) [] :
        (isortB (pyRowsOf raw dsid)).Perm (pyRowsOf raw dsid)).symm
  · exact sortedRowsB_isortAux _ (by simp [SortedRowsB])
  · exact sortedRowsB_isortAux _ (by simp [SortedRowsB])
  · have hpm : ((isortB (pyRowsOf raw' dsid)).map rowKeyFields).Perm
        ((pyRowsOf raw dsid).map rowKeyFields) :=
      (((by simpa using perm_isortAux (pyRowsOf raw' dsid) [] :
        (isortB (pyRowsOf raw' dsid)).Perm (pyRowsOf raw' dsid)).trans hper).map rowKeyFields)
    exact hpm.nodup_iff.mpr hd

/-- C8 counterexample: two records with the same start time and different
values.  Swapping them is a permutation of the input, yet the Row lists
differ (the stable sort keeps the input order of equal keys), so the output
is not a pure function of the input record set. -/
theorem normalizer_order_invariant_counterexample :
    ([.vdict [("startTime", .vstr "2024-01-01T00:00"), ("value", .vint 2)],
      .vdict [("startTime", .vstr "2024-01-01T00:00"), ("value", .vint 1)]] : List PyVal).Perm
      [.vdict [("startTime", .vstr "2024-01-01T00:00"), ("value", .vint 1)],
       .vdict [("startTime", .vstr "2024-01-01T00:00"), ("value", .vint 2)]] ∧
    process_rows [.vdict [("startTime", .vstr "2024-01-01T00:00"), ("value", .vint 2)],
        .vdict [("startTime", .vstr "2024-01-01T00:00"), ("value", .vint 1)]] "1" ≠
      process_rows [.vdict [("startTime", .vstr "2024-01-01T00:00"), ("value", .vint 1)],
        .vdict [("startTime", .vstr "2024-01-01T00:00"), ("value", .vint 2)]] "1" := by
  constructor
  · exact List.Perm.swap _ _ _
  · intro h
    have h2 := congrArg (fun e => match e with
      | Except.ok (r :: _) => r.value
      | _ => PFloat.nan) h
    exact absurd h2 (by decide)

/-- Witness for C8: distinct keys — the reversed input yields the identical
output. -/
theorem normalizer_order_invariant_witness :
    process_rows [.vdict [("startTime", .vstr "2024-01-01T00:00"), ("value", .vint 1)],
        .vdict [("startTime", .vstr "2024-01-02T00:00"), ("value", .vint 2)]] "1" =
      process_rows [.vdict [("startTime", .vstr "2024-01-02T00:00"), ("value", .vint 2)],
        .vdict [("startTime", .vstr "2024-01-01T00:00"), ("value", .vint 1)]] "1" :=
  normalizer_order_invariant
    [.vdict [("startTime", .vstr "2024-01-02T00:00"), ("value", .vint 2)],
     .vdict [("startTime", .vstr "2024-01-01T00:00"), ("value", .vint 1)]]
    [.vdict [("startTime", .vstr "2024-01-01T00:00"), ("value", .vint 1)],
     .vdict [("startTime", .vstr "2024-01-02T00:00"), ("value", .vint 2)]]
    "1"
    [⟨.dt ⟨2024, 1, 2, 0, 0, 0, 0, Option.none⟩, .dt ⟨2024, 1, 2, 0, 0, 0, 0, Option.none⟩,
        .finite 2, "1"⟩,
     ⟨.dt ⟨2024, 1, 1, 0, 0, 0, 0, Option.none⟩, .dt ⟨2024, 1, 1, 0, 0, 0, 0, Option.none⟩,
        .finite 1, "1"⟩]
    (List.Perm.swap _ _ _) (by rfl) (by decide) (by decide)

end Fingrid
